import Mathlib

/-!
Shallow embedding of the `stockradar` repository (Go) for checking its
natural-language specification.

Modelling conventions, used consistently below:
* Go `float64` prices, percentages and rates are modelled as `ℚ`.
* Go `time.Time` and `time.Duration` are modelled as `ℤ` nanosecond counts;
  the zero time is `0` (`time.Time.IsZero` becomes `= 0`), and every call
  that reads the wall clock (`time.Now()`) receives the clock value as an
  explicit `now` parameter.
* Go `map[string]T` is modelled as an association list `List (String × T)`
  with first-match lookup and in-place insert; a missing `bool` entry reads
  as `false`, exactly like a Go map read of a missing key.
* Fallible operations return `Option`.
-/

namespace StockRadar

/- The Batteries rational arithmetic definitions are `@[irreducible]`, which
blocks `decide`-style evaluation of the embedded engines on concrete inputs;
restore the default reducibility for this development. -/
attribute [local semireducible] Rat.add Rat.mul Rat.sub Rat.inv

/-- First-match lookup in an association list (Go map read). -/
def alookup {α : Type} : List (String × α) → String → Option α
  | [], _ => none
  | kv :: rest, k => if kv.1 = k then some kv.2 else alookup rest k

/-- In-place insert into an association list (Go map write): replaces the
first binding of the key, else appends. -/
def ainsert {α : Type} : List (String × α) → String → α → List (String × α)
  | [], k, v => [(k, v)]
  | kv :: rest, k, v => if kv.1 = k then (k, v) :: rest else kv :: ainsert rest k v

theorem alookup_ainsert {α : Type} (m : List (String × α)) (k : String) (v : α)
    (k2 : String) :
    alookup (ainsert m k v) k2 = if k2 = k then some v else alookup m k2 := by
  induction m with
  | nil =>
      by_cases h : k2 = k
      · subst h; simp [ainsert, alookup]
      · simp [ainsert, alookup, h, Ne.symm h]
  | cons kv rest ih =>
      by_cases hk : kv.1 = k
      · simp only [ainsert, if_pos hk, alookup]
        by_cases h2 : k2 = k
        · simp [h2]
        · simp [h2, Ne.symm h2, hk]
      · simp only [ainsert, if_neg hk, alookup]
        rw [ih]
        by_cases h1 : kv.1 = k2
        · have hne : ¬ k2 = k := fun hh => hk (h1.trans hh)
          rw [if_pos h1, if_neg hne, if_pos h1]
        · rw [if_neg h1]
          by_cases h2 : k2 = k
          · simp [h2]
          · simp [h2, h1]

theorem alookup_ainsert_self {α : Type} (m : List (String × α)) (k : String) (v : α) :
    alookup (ainsert m k v) k = some v := by
  simp [alookup_ainsert]

theorem alookup_ainsert_ne {α : Type} (m : List (String × α)) (k : String) (v : α)
    (k2 : String) (h : k2 ≠ k) :
    alookup (ainsert m k v) k2 = alookup m k2 := by
  simp [alookup_ainsert, h]

/-- Go `unicode.IsSpace` restricted to the ASCII whitespace characters
(the only ones appearing in this system's inputs). -/
def goIsSpace (c : Char) : Bool :=
  c = ' ' || c = '\t' || c = '\n' || c = '\x0b' || c = '\x0c' || c = '\r'

/-- ASCII uppercase mapping of one character. -/
def charToUpper (c : Char) : Char :=
  if 97 ≤ c.toNat ∧ c.toNat ≤ 122 then Char.ofNat (c.toNat - 32) else c

/-- ASCII lowercase mapping of one character. -/
def charToLower (c : Char) : Char :=
  if 65 ≤ c.toNat ∧ c.toNat ≤ 90 then Char.ofNat (c.toNat + 32) else c

/-- Go `strings.TrimSpace`: drop whitespace from both ends. -/
def goTrimSpace (s : String) : String :=
  String.mk (((s.data.dropWhile goIsSpace).reverse.dropWhile goIsSpace).reverse)

/-- Go `strings.ToUpper` (ASCII range). -/
def goToUpper (s : String) : String := String.mk (s.data.map charToUpper)

/-- Go `strings.ToLower` (ASCII range). -/
def goToLower (s : String) : String := String.mk (s.data.map charToLower)

/-- Byte-wise lexicographic string order, as used by Go's `sort.Strings`. -/
def strLtB : List Char → List Char → Bool
  | [], [] => false
  | [], _ :: _ => true
  | _ :: _, [] => false
  | a :: as, b :: bs => if a < b then true else if b < a then false else strLtB as bs

/-- Floor of a rational (`q.num / q.den` with floor division). -/
def qfloor (q : ℚ) : ℤ := Int.fdiv q.num q.den

/-- Round to nearest integer; models the rounding performed by Go's
`fmt.Sprintf("%.Nf", x)` (the tie-breaking mode is immaterial here: the
formatted strings only appear inside alert messages and map keys). -/
def qround (q : ℚ) : ℤ := qfloor (q + 1/2)

/-- Model of Go `fmt.Sprintf("%.<prec>f", x)` for a rational `x`. -/
def fmtFixed (prec : Nat) (q : ℚ) : String :=
  let scaled : ℤ := qround (q * (10 : ℚ) ^ prec)
  let sign := if scaled < 0 then "-" else ""
  let a := scaled.natAbs
  let ip := a / 10 ^ prec
  let fp := a % 10 ^ prec
  let fpStr := toString fp
  let pad := String.mk (List.replicate (prec - fpStr.length) '0')
  if prec = 0 then sign ++ toString ip
  else sign ++ toString ip ++ "." ++ pad ++ fpStr

/-! ## Watchlist (internal/watchlist) -/

/-- `watchlist.BaseChangeRule`. -/
structure BaseChangeRule where
  upPct : ℚ
  downPct : ℚ
  cooldown : ℤ
deriving DecidableEq

/-- `watchlist.MomentumRule`. -/
structure MomentumRule where
  window : ℤ
  upPct : ℚ
  downPct : ℚ
  cooldown : ℤ
deriving DecidableEq

/-- `watchlist.PriceCrossRule`. -/
structure PriceCrossRule where
  above : ℚ
  below : ℚ
  cooldown : ℤ
deriving DecidableEq

/-- `watchlist.Symbol` (the `name` field is never read by the engines and
is omitted). -/
structure WSymbol where
  ticker : String
  enabled : Option Bool
  baseChange : Option BaseChangeRule
  momentum : Option MomentumRule
  priceCross : Option PriceCrossRule
  cooldown : ℤ
deriving DecidableEq

/-- `(*Watchlist).Find`: uppercases and trims the queried ticker, then
returns the first entry with that ticker. -/
def wlFind (wl : List WSymbol) (ticker : String) : Option WSymbol :=
  let t := goToUpper (goTrimSpace ticker)
  wl.find? (fun s => s.ticker == t)

/-! ## Rule engine (radar.Engine) -/

/-- `radar.AlertType`. -/
inductive AlertType where
  | baseUp | baseDown | momentumUp | momentumDown | crossAbove | crossBelow
deriving DecidableEq

/-- `radar.Alert`. -/
structure Alert where
  type : AlertType
  symbol : String
  price : ℚ
  message : String
  speakText : String
deriving DecidableEq

/-- `radar.Config`. -/
structure EngineCfg where
  globalCooldown : ℤ
  historyWindow : ℤ
deriving DecidableEq

/-- `radar.NewEngine`'s config defaulting. -/
def newEngineCfg (cfg : EngineCfg) : EngineCfg :=
  let cfg := if cfg.globalCooldown ≤ 0 then { cfg with globalCooldown := 25000000000 } else cfg
  if cfg.historyWindow ≤ 0 then { cfg with historyWindow := 300000000000 } else cfg

/-- `radar.point`. -/
structure Pt where
  t : ℤ
  p : ℚ
  v : ℚ
deriving DecidableEq

/-- `radar.symbolState`; Go's zero-valued maps read as `false` / missing. -/
structure SymState where
  basePrice : ℚ := 0
  lastPrice : ℚ := 0
  lastTime : ℤ := 0
  hist : List Pt := []
  active : List (String × Bool) := []
  lastAlert : List (String × ℤ) := []
deriving DecidableEq

/-- `radar.pruneByAge`: drop the leading points strictly older than `minT`. -/
def pruneByAge (h : List Pt) (minT : ℤ) : List Pt :=
  h.dropWhile (fun p => decide (p.t < minT))

/-- `radar.priceAtOrBefore`: scan in order, stopping at the first point after
`target`; the result is the last point scanned with `t ≤ target`. -/
def priceAtOrBefore (hist : List Pt) (target : ℤ) : Option ℚ :=
  ((hist.takeWhile (fun p => decide (p.t ≤ target))).getLast?).map (fun p => p.p)

/-- Cooldown resolution in `Engine.edgeAlert`: rule-specific cooldown, else
symbol-level default, else the engine-wide global default. -/
def resolveCooldown (cfg : EngineCfg) (ws : WSymbol) (cooldown : ℤ) : ℤ :=
  if cooldown ≤ 0 then
    (if 0 < ws.cooldown then ws.cooldown else cfg.globalCooldown)
  else cooldown

/-- `Engine.edgeAlert`: the edge + cooldown gate. Stores the new condition in
`active[key]`, fires only on a `false → true` transition, suppresses the
firing when less than the resolved cooldown has elapsed since `lastAlert[key]`,
and records the firing time. -/
def edgeAlert (cfg : EngineCfg) (ws : WSymbol) (st : SymState) (key : String)
    (condition : Bool) (cooldown : ℤ) (atype : AlertType) (symbol : String)
    (price : ℚ) (message speak : String) (now : ℤ) : List Alert × SymState :=
  let cd := resolveCooldown cfg ws cooldown
  let prev := (alookup st.active key).getD false
  let st1 := { st with active := ainsert st.active key condition }
  if !condition || prev then ([], st1)
  else
    let ok : Bool :=
      match alookup st1.lastAlert key with
      | some last => decide (cd ≤ now - last)
      | none => true
    if ok then
      ([{ type := atype, symbol := symbol, price := price,
          message := message, speakText := speak }],
        { st1 with lastAlert := ainsert st1.lastAlert key now })
    else ([], st1)

/-- The resolved momentum window: `ws.Momentum.Window`, defaulting to 60 s. -/
def momWindow (m : MomentumRule) : ℤ :=
  if m.window ≤ 0 then 60000000000 else m.window

/-- The base-change rule section of `Engine.Update` (lines 124–145 of the
source): evaluates the `base_up` / `base_down` conditions against the
baseline price and runs each through the edge + cooldown gate. -/
def baseChangeBlock (cfg : EngineCfg) (ws : WSymbol) (st : SymState)
    (symbol : String) (price : ℚ) (now : ℤ) : List Alert × SymState :=
  match ws.baseChange with
  | none => ([], st)
  | some bc =>
    if 0 < st.basePrice then
      let pct := ((price - st.basePrice) / st.basePrice) * 100
      let r1 :=
        if 0 < bc.upPct then
          edgeAlert cfg ws st "base_up" (decide (bc.upPct ≤ pct)) bc.cooldown
            .baseUp symbol price
            (symbol ++ " up " ++ fmtFixed 2 pct ++ "% vs baseline")
            ("Alert. " ++ symbol ++ " up " ++ fmtFixed 1 pct ++ " percent.") now
        else ([], st)
      let r2 :=
        if 0 < bc.downPct then
          edgeAlert cfg ws r1.2 "base_down" (decide (pct ≤ -|bc.downPct|)) bc.cooldown
            .baseDown symbol price
            (symbol ++ " down " ++ fmtFixed 2 |pct| ++ "% vs baseline")
            ("Alert. " ++ symbol ++ " down " ++ fmtFixed 1 |pct| ++ " percent.") now
        else ([], r1.2)
      (r1.1 ++ r2.1, r2.2)
    else ([], st)

/-- The momentum rule section of `Engine.Update` (lines 148–176): looks up
the reference price at or before `ts − window`; when absent (warm-up) the
whole section is skipped silently. Go's `Duration.String()` key component is
modelled as the decimal nanosecond count (an injective rendering; only key
stability matters). -/
def momentumBlock (cfg : EngineCfg) (ws : WSymbol) (st : SymState)
    (symbol : String) (price : ℚ) (ts now : ℤ) : List Alert × SymState :=
  match ws.momentum with
  | none => ([], st)
  | some m =>
    let win := momWindow m
    match priceAtOrBefore st.hist (ts - win) with
    | none => ([], st)
    | some oldPrice =>
      if 0 < oldPrice then
        let pct := ((price - oldPrice) / oldPrice) * 100
        let upKey := "mom_up_" ++ toString win
        let downKey := "mom_down_" ++ toString win
        let secs := toString (win / 1000000000)
        let r1 :=
          if 0 < m.upPct then
            edgeAlert cfg ws st upKey (decide (m.upPct ≤ pct)) m.cooldown
              .momentumUp symbol price
              (symbol ++ " momentum up " ++ fmtFixed 2 pct ++ "% in " ++ toString win)
              ("Momentum. " ++ symbol ++ " up " ++ fmtFixed 1 pct ++
                " percent in the last " ++ secs ++ " seconds.") now
          else ([], st)
        let r2 :=
          if 0 < m.downPct then
            edgeAlert cfg ws r1.2 downKey (decide (pct ≤ -|m.downPct|)) m.cooldown
              .momentumDown symbol price
              (symbol ++ " momentum down " ++ fmtFixed 2 |pct| ++ "% in " ++ toString win)
              ("Momentum. " ++ symbol ++ " down " ++ fmtFixed 1 |pct| ++
                " percent in the last " ++ secs ++ " seconds.") now
          else ([], r1.2)
        (r1.1 ++ r2.1, r2.2)
      else ([], st)

/-- The price-cross rule section of `Engine.Update` (lines 179–198). -/
def priceCrossBlock (cfg : EngineCfg) (ws : WSymbol) (st : SymState)
    (symbol : String) (price : ℚ) (now : ℤ) : List Alert × SymState :=
  match ws.priceCross with
  | none => ([], st)
  | some pc =>
    let r1 :=
      if 0 < pc.above then
        edgeAlert cfg ws st ("cross_above_" ++ fmtFixed 4 pc.above)
          (decide (pc.above ≤ price)) pc.cooldown .crossAbove symbol price
          (symbol ++ " crossed above " ++ fmtFixed 2 pc.above)
          ("Price level. " ++ symbol ++ " crossed above " ++ fmtFixed 2 pc.above ++ ".") now
      else ([], st)
    let r2 :=
      if 0 < pc.below then
        edgeAlert cfg ws r1.2 ("cross_below_" ++ fmtFixed 4 pc.below)
          (decide (price ≤ pc.below)) pc.cooldown .crossBelow symbol price
          (symbol ++ " crossed below " ++ fmtFixed 2 pc.below)
          ("Price level. " ++ symbol ++ " crossed below " ++ fmtFixed 2 pc.below ++ ".") now
      else ([], r1.2)
    (r1.1 ++ r2.1, r2.2)

/-- `Engine.Update`. The engine's symbol-state map is passed and returned
explicitly; `now` is the wall-clock reading used for `ts.IsZero()`
substitution and inside `edgeAlert`. Mirrors the source order: watchlist
lookup, enabled filter, state allocation, zero-timestamp fix, price filter,
baseline/last/history update, then the three rule sections. -/
def Engine.update (cfg : EngineCfg) (wl : List WSymbol)
    (state : List (String × SymState)) (symbol : String) (price volume : ℚ)
    (ts₀ now : ℤ) : List Alert × List (String × SymState) :=
  match wlFind wl symbol with
  | none => ([], state)
  | some ws =>
    if ws.enabled = some false then ([], state)
    else
      let st₀ := (alookup state symbol).getD {}
      let state₁ := if (alookup state symbol).isSome then state else ainsert state symbol {}
      let ts := if ts₀ = 0 then now else ts₀
      if price ≤ 0 then ([], state₁)
      else
        let st₁ := if st₀.basePrice = 0 then { st₀ with basePrice := price } else st₀
        let st₂ := { st₁ with lastPrice := price, lastTime := ts }
        let st₃ := { st₂ with
          hist := pruneByAge (st₂.hist ++ [⟨ts, price, volume⟩]) (ts - cfg.historyWindow) }
        let r1 := baseChangeBlock cfg ws st₃ symbol price now
        let r2 := momentumBlock cfg ws r1.2 symbol price ts now
        let r3 := priceCrossBlock cfg ws r2.2 symbol price now
        (r1.1 ++ r2.1 ++ r3.1, ainsert state₁ symbol r3.2)

/-- One inbound tick together with the wall-clock reading of its processing. -/
structure Tick where
  symbol : String
  price : ℚ
  volume : ℚ
  ts : ℤ
  now : ℤ
deriving DecidableEq

/-- Folding `Engine.Update` over a sequence of ticks. -/
def Engine.run (cfg : EngineCfg) (wl : List WSymbol)
    (state : List (String × SymState)) (ticks : List Tick) :
    List (String × SymState) :=
  ticks.foldl (fun s tk => (Engine.update cfg wl s tk.symbol tk.price tk.volume tk.ts tk.now).2) state

/-- The price of the first tick with a positive price (the first update the
engine accepts for an enabled watchlisted symbol). -/
def firstPos (ticks : List Tick) : Option ℚ :=
  (ticks.find? (fun tk => decide (0 < tk.price))).map (fun tk => tk.price)

/-- One call of `edgeAlert` for a fixed rule key: the evaluated condition,
the wall clock at the call, and the alert payload. -/
structure EdgeStep where
  condition : Bool
  now : ℤ
  price : ℚ := 0
  message : String := ""
  speak : String := ""
deriving DecidableEq

/-- Folding `edgeAlert` over a sequence of calls for one fixed rule key,
collecting the emitted alerts. -/
def runEdge (cfg : EngineCfg) (ws : WSymbol) (key : String) (cooldown : ℤ)
    (atype : AlertType) (symbol : String) :
    SymState → List EdgeStep → List Alert × SymState
  | st, [] => ([], st)
  | st, s :: rest =>
    let r := edgeAlert cfg ws st key s.condition cooldown atype symbol s.price
      s.message s.speak s.now
    let r2 := runEdge cfg ws key cooldown atype symbol r.2 rest
    (r.1 ++ r2.1, r2.2)

/-! ## Cloud engine (radar.CloudEngine) -/

/-- `radar.CloudConfig`. -/
structure CloudConfig where
  enabled : Bool
  emitEvery : ℤ
  staleAfter : ℤ
  deadbandPct : ℚ
  capMovePct : ℚ
  strengthPct : ℚ
  smoothing : ℚ
  minRateHz : ℚ
  maxRateHz : ℚ
  breadthWeight : ℚ
deriving DecidableEq

/-- `radar.clamp`. -/
def clamp (x lo hi : ℚ) : ℚ :=
  if x < lo then lo else if hi < x then hi else x

/-- `NewCloudEngine`'s deadband defaulting: negative becomes 0, zero becomes
the 0.003 % default. -/
def normDeadband (x : ℚ) : ℚ :=
  let x := if x < 0 then 0 else x
  if x = 0 then (3/1000 : ℚ) else x

/-- `NewCloudEngine`'s full-scale defaulting: zero becomes 0.03 %, then the
absolute value is taken. -/
def normStrength (x : ℚ) : ℚ :=
  let x := if x = 0 then (3/100 : ℚ) else x
  if x < 0 then -x else x

/-- `NewCloudEngine`'s smoothing defaulting: outside `(0, 1]` becomes 0.25. -/
def normSmoothing (x : ℚ) : ℚ :=
  if x ≤ 0 ∨ 1 < x then (1/4 : ℚ) else x

/-- `NewCloudEngine`'s rate defaulting: negative min becomes 0, non-positive
max becomes 12, then max is raised to min. -/
def normRates (mn mx : ℚ) : ℚ × ℚ :=
  let mn := if mn < 0 then 0 else mn
  let mx := if mx ≤ 0 then (12 : ℚ) else mx
  (mn, if mx < mn then mn else mx)

/-- `NewCloudEngine`'s breadth-weight defaulting: clipped into `[0, 1]`, and
zero becomes 0.45. -/
def normBreadth (x : ℚ) : ℚ :=
  let x := if x < 0 then 0 else x
  let x := if 1 < x then 1 else x
  if x = 0 then (9/20 : ℚ) else x

/-- The configuration normalization performed by `NewCloudEngine`
(each Go statement touches exactly the fields shown; the min/max pair is
normalized jointly). -/
def normCloudConfig (cfg : CloudConfig) : CloudConfig :=
  { cfg with
    emitEvery := if cfg.emitEvery ≤ 0 then 200000000 else cfg.emitEvery
    staleAfter := if cfg.staleAfter ≤ 0 then 3000000000 else cfg.staleAfter
    deadbandPct := normDeadband cfg.deadbandPct
    strengthPct := normStrength cfg.strengthPct
    smoothing := normSmoothing cfg.smoothing
    minRateHz := (normRates cfg.minRateHz cfg.maxRateHz).1
    maxRateHz := (normRates cfg.minRateHz cfg.maxRateHz).2
    breadthWeight := normBreadth cfg.breadthWeight }

/-- `radar.cloudSym`. -/
structure CloudSym where
  lastPrice : ℚ := 0
  lastDeltaPct : ℚ := 0
  lastVol : ℚ := 0
  lastTs : ℤ := 0
  ready : Bool := false
deriving DecidableEq

/-- The mutable part of `radar.CloudEngine` (`syms`, `ewma`, `hasEwma`). -/
structure CloudState where
  syms : List (String × CloudSym) := []
  ewma : ℚ := 0
  hasEwma : Bool := false
deriving DecidableEq

/-- Insertion sort on strings, modelling Go's `sort.Strings`. -/
def sortStrings (l : List String) : List String :=
  let rec insert (s : String) : List String → List String
    | [] => [s]
    | x :: xs => if strLtB s.data x.data then s :: x :: xs else x :: insert s xs
  l.foldr insert []

/-- `(*Watchlist).Tickers`: the enabled, non-empty tickers, sorted. -/
def wlTickers (wl : List WSymbol) : List String :=
  sortStrings ((wl.filter (fun s => !(s.enabled == some false) && !(s.ticker == ""))).map
    (fun s => s.ticker))

/-- `radar.NewCloudEngine`: normalized configuration plus the pre-seeded
per-symbol map. -/
def NewCloudEngine (cfg : CloudConfig) (wl : Option (List WSymbol)) :
    CloudConfig × CloudState :=
  let cfg := normCloudConfig cfg
  let syms := match wl with
    | none => []
    | some l => (wlTickers l).map (fun t => (t, ({} : CloudSym)))
  (cfg, { syms := syms, ewma := 0, hasEwma := false })

/-- `radar.CloudPulse`. -/
structure CloudPulse where
  time : ℤ
  symbol : String
  price : ℚ
  volume : ℚ
  deltaPct : ℚ
  direction : String
  strength : ℚ
deriving DecidableEq

/-- The watchlist filter of `CloudEngine.Update` (a `nil` watchlist skips
the filter, as in the source). -/
def cloudWlAccepts (wl : Option (List WSymbol)) (symbol : String) : Bool :=
  match wl with
  | none => true
  | some l =>
    match wlFind l symbol with
    | none => false
    | some ws => !(ws.enabled == some false)

/-- The raw per-tick percent delta of `CloudEngine.Update`: zero unless the
symbol is `ready` with a positive stored last price. -/
def rawDeltaPct (st : CloudSym) (price : ℚ) : ℚ :=
  if st.ready && decide (0 < st.lastPrice) then ((price - st.lastPrice) / st.lastPrice) * 100
  else 0

/-- The pulse assembled on the accepted path of `CloudEngine.Update`:
delta clamped symmetrically to `|CapMovePct|` when that is positive,
direction strictly by the sign of the clamped delta, strength
`|clamped| / strengthPct` clipped to `[0,1]` (guarded on a positive
full-scale, with the zero full-scale defaulting to 0.03). -/
def cloudPulseOf (cfg : CloudConfig) (st : CloudSym) (symbol : String)
    (price volume : ℚ) (ts : ℤ) : CloudPulse :=
  let rawDelta := rawDeltaPct st price
  let capMove := |cfg.capMovePct|
  let d :=
    if 0 < capMove then
      (if capMove < rawDelta then capMove
       else if rawDelta < -capMove then -capMove
       else rawDelta)
    else rawDelta
  let dir := if 0 < d then "up" else if d < 0 then "down" else "flat"
  let sp := if cfg.strengthPct = 0 then (3/100 : ℚ) else cfg.strengthPct
  let str := if 0 < sp then clamp (|d| / sp) 0 1 else 0
  { time := ts, symbol := symbol, price := price, volume := volume,
    deltaPct := d, direction := dir, strength := str }

/-- `CloudEngine.Update`: rejects a disabled engine, a non-positive price and
a symbol filtered out by the watchlist; otherwise produces the pulse and
persists the per-symbol state (`lastDeltaPct` stores the *unclamped* delta). -/
def CloudEngine.update (cfg : CloudConfig) (wl : Option (List WSymbol))
    (s : CloudState) (symbol : String) (price volume : ℚ) (ts₀ now : ℤ) :
    Option CloudPulse × CloudState :=
  if !cfg.enabled then (none, s)
  else if price ≤ 0 then (none, s)
  else if !cloudWlAccepts wl symbol then (none, s)
  else
    let ts := if ts₀ = 0 then now else ts₀
    let st := (alookup s.syms symbol).getD {}
    let pulse := cloudPulseOf cfg st symbol price volume ts
    let st' : CloudSym :=
      { lastDeltaPct := rawDeltaPct st price, lastPrice := price,
        lastVol := volume, lastTs := ts, ready := true }
    (some pulse, { s with syms := ainsert s.syms symbol st' })

/-- `radar.CloudSnapshot`. -/
structure CloudSnapshot where
  time : ℤ
  direction : String
  strength : ℚ
  rateHz : ℚ
  scorePct : ℚ
  rawPct : ℚ
  breadth : ℚ
  adv : ℕ
  dec : ℕ
  flat : ℕ
  active : ℕ
  total : ℕ
  message : String
deriving DecidableEq

/-- The accumulator of `CloudEngine.Snapshot`'s per-symbol loop. -/
structure SnapAcc where
  sum : ℚ := 0
  n : ℕ := 0
  adv : ℕ := 0
  dec : ℕ := 0
  flat : ℕ := 0
deriving DecidableEq

/-- One iteration of `CloudEngine.Snapshot`'s loop: skip non-ready, priced-out
or stale symbols; count advance/decline/flat on the *unclamped* stored delta;
accumulate the clamped delta. -/
def snapStep (cfg : CloudConfig) (now : ℤ) (acc : SnapAcc) (st : CloudSym) : SnapAcc :=
  if !st.ready || decide (st.lastPrice ≤ 0) then acc
  else if 0 < cfg.staleAfter ∧ cfg.staleAfter < now - st.lastTs then acc
  else
    let d := st.lastDeltaPct
    let acc :=
      if 0 < d then { acc with adv := acc.adv + 1 }
      else if d < 0 then { acc with dec := acc.dec + 1 }
      else { acc with flat := acc.flat + 1 }
    let capMove := |cfg.capMovePct|
    let d :=
      if 0 < capMove then
        (if capMove < d then capMove else if d < -capMove then -capMove else d)
      else d
    { acc with sum := acc.sum + d, n := acc.n + 1 }

/-- Snapshot direction: `flat` inside the deadband, else the sign of the
smoothed score (a zero score also stays `flat`, which with a positive
deadband cannot be reached outside it). -/
def snapDirection (score db : ℚ) : String :=
  if db ≤ |score| then (if 0 < score then "up" else if score < 0 then "down" else "flat")
  else "flat"

/-- `CloudEngine.Snapshot`: aggregates over all per-symbol states, updates the
EWMA, and derives direction, strength and suggested rate. The `now` argument
is the wall clock passed by the caller (the source substitutes `time.Now()`
for a zero `now`, which the model receives directly). -/
def CloudEngine.snapshot (cfg : CloudConfig) (s : CloudState) (now : ℤ) :
    CloudSnapshot × CloudState :=
  let total := s.syms.length
  let acc := s.syms.foldl (fun a kv => snapStep cfg now a kv.2) {}
  let rawScore := if 0 < acc.n then acc.sum / (acc.n : ℚ) else 0
  let breadth := if 0 < acc.n then ((acc.adv : ℚ) - (acc.dec : ℚ)) / (acc.n : ℚ) else 0
  let bw := cfg.breadthWeight
  let composite := (1 - bw) * rawScore + bw * (breadth * cfg.strengthPct)
  let ewma := if !s.hasEwma then composite else (1 - cfg.smoothing) * s.ewma + cfg.smoothing * composite
  let score := ewma
  let direction := snapDirection score cfg.deadbandPct
  let strength :=
    if direction = "flat" then 0
    else
      let sp := if cfg.strengthPct = 0 then (3/100 : ℚ) else cfg.strengthPct
      clamp (|score| / sp) 0 1
  let rateHz :=
    if direction = "flat" then 0
    else
      let r := cfg.minRateHz + strength * (cfg.maxRateHz - cfg.minRateHz)
      if r < 0 then 0 else r
  let label := if direction = "up" then "UP" else if direction = "down" then "DOWN" else "FLAT"
  let msg := "Cloud " ++ label ++ " - strength " ++ fmtFixed 2 strength ++
    " - score " ++ (if score < 0 then "" else "+") ++ fmtFixed 4 score ++ "% - adv " ++
    toString acc.adv ++ " / dec " ++ toString acc.dec ++ " / flat " ++ toString acc.flat
  (⟨now, direction, strength, rateHz, score, rawScore, breadth,
    acc.adv, acc.dec, acc.flat, acc.n, total, msg⟩,
   { s with ewma := ewma, hasEwma := true })

/-! ## Broadcaster (internal/server) -/

/-- `server.Event` (all fields of the source struct; the JSON tags are
irrelevant to the embedded behaviour). -/
structure Event where
  time : ℤ := 0
  symbol : String := ""
  price : ℚ := 0
  volume : ℚ := 0
  type : String := ""
  message : String := ""
  audioURL : String := ""
  cacheHit : Bool := false
  direction : String := ""
  strength : ℚ := 0
  score : ℚ := 0
  adv : ℕ := 0
  dec : ℕ := 0
  flat : ℕ := 0
  active : ℕ := 0
  total : ℕ := 0
  rateHz : ℚ := 0
  deltaPct : ℚ := 0
deriving DecidableEq

/-- The broadcaster's stored state: the bounded history ring and the latest
cloud snapshot (Go's `hasCloud : bool` plus `cloud : Event` pair is modelled
as an `Option`). Subscriber channels carry no stored state and are outside
the embedding. -/
structure ServerState where
  history : List Event := []
  cloud : Option Event := none
deriving DecidableEq

/-- `Server.Broadcast`'s state transition: `cloud` events replace the latest
snapshot and stay out of history; `cloud_pulse` events touch nothing; every
other event is appended to the history after compacting it to the last 400
entries whenever it holds 500 or more. -/
def Server.broadcast (s : ServerState) (ev : Event) : ServerState :=
  if ev.type = "cloud" then { s with cloud := some ev }
  else if ev.type = "cloud_pulse" then s
  else
    let h := if 500 ≤ s.history.length then s.history.drop (s.history.length - 400)
             else s.history
    { s with history := h ++ [ev] }

/-! ## TTS cache (internal/tts)

The Go code fingerprints with `crypto/sha256`, which lives outside this
repository; the compression function below is the standard SHA-256 algorithm
(FIPS 180-4) written over `ℕ` with explicit reduction mod `2^32`. -/

/-- Reduce mod `2^32`. -/
def m32 (n : ℕ) : ℕ := n % 4294967296

/-- 32-bit addition. -/
def add32 (a b : ℕ) : ℕ := m32 (a + b)

/-- 32-bit right rotation (arguments below `2^32`). -/
def rotr32 (n x : ℕ) : ℕ := Nat.lor (x >>> n) (m32 (x <<< (32 - n)))

/-- 32-bit complement. -/
def not32 (x : ℕ) : ℕ := Nat.xor x 4294967295

/-- SHA-256 `Ch`. -/
def sha256Ch (x y z : ℕ) : ℕ := Nat.xor (Nat.land x y) (Nat.land (not32 x) z)

/-- SHA-256 `Maj`. -/
def sha256Maj (x y z : ℕ) : ℕ :=
  Nat.xor (Nat.land x y) (Nat.xor (Nat.land x z) (Nat.land y z))

/-- SHA-256 `Σ₀`. -/
def bigSigma0 (x : ℕ) : ℕ := Nat.xor (rotr32 2 x) (Nat.xor (rotr32 13 x) (rotr32 22 x))

/-- SHA-256 `Σ₁`. -/
def bigSigma1 (x : ℕ) : ℕ := Nat.xor (rotr32 6 x) (Nat.xor (rotr32 11 x) (rotr32 25 x))

/-- SHA-256 `σ₀`. -/
def smallSigma0 (x : ℕ) : ℕ := Nat.xor (rotr32 7 x) (Nat.xor (rotr32 18 x) (x >>> 3))

/-- SHA-256 `σ₁`. -/
def smallSigma1 (x : ℕ) : ℕ := Nat.xor (rotr32 17 x) (Nat.xor (rotr32 19 x) (x >>> 10))

/-- The 64 SHA-256 round constants. -/
def sha256K : List ℕ :=
  [1116352408, 1899447441, 3049323471, 3921009573, 961987163, 1508970993,
   2453635748, 2870763221, 3624381080, 310598401, 607225278, 1426881987,
   1925078388, 2162078206, 2614888103, 3248222580, 3835390401, 4022224774,
   264347078, 604807628, 770255983, 1249150122, 1555081692, 1996064986,
   2554220882, 2821834349, 2952996808, 3210313671, 3336571891, 3584528711,
   113926993, 338241895, 666307205, 773529912, 1294757372, 1396182291,
   1695183700, 1986661051, 2177026350, 2456956037, 2730485921, 2820302411,
   3259730800, 3345764771, 3516065817, 3600352804, 4094571909, 275423344,
   430227734, 506948616, 659060556, 883997877, 958139571, 1322822218,
   1537002063, 1747873779, 1955562222, 2024104815, 2227730452, 2361852424,
   2428436474, 2756734187, 3204031479, 3329325298]

/-- The SHA-256 initial hash value. -/
def sha256H0 : List ℕ :=
  [1779033703, 3144134277, 1013904242, 2773480762, 1359893119, 2600822924,
   528734635, 1541459225]

/-- Big-endian 32-bit words from a byte list. -/
def toWords32 : List ℕ → List ℕ
  | b0 :: b1 :: b2 :: b3 :: rest =>
      (((b0 * 256 + b1) * 256 + b2) * 256 + b3) :: toWords32 rest
  | _ => []

/-- Extend 16 message-schedule words to 64. -/
def sha256Extend (ws : List ℕ) : List ℕ :=
  (List.range 48).foldl
    (fun ws _ =>
      let k := ws.length
      let w := add32 (add32 (smallSigma1 (ws.getD (k - 2) 0)) (ws.getD (k - 7) 0))
        (add32 (smallSigma0 (ws.getD (k - 15) 0)) (ws.getD (k - 16) 0))
      ws ++ [w])
    ws

/-- The eight SHA-256 working registers. -/
structure Sha256Regs where
  a : ℕ
  b : ℕ
  c : ℕ
  d : ℕ
  e : ℕ
  f : ℕ
  g : ℕ
  hh : ℕ
deriving DecidableEq

/-- One SHA-256 round. -/
def sha256Round (r : Sha256Regs) (kw : ℕ × ℕ) : Sha256Regs :=
  let t1 := add32 r.hh (add32 (bigSigma1 r.e)
    (add32 (sha256Ch r.e r.f r.g) (add32 kw.1 kw.2)))
  let t2 := add32 (bigSigma0 r.a) (sha256Maj r.a r.b r.c)
  ⟨add32 t1 t2, r.a, r.b, r.c, add32 r.d t1, r.e, r.f, r.g⟩

/-- Compress one 64-byte chunk into the running hash. -/
def sha256Compress (h : List ℕ) (chunk : List ℕ) : List ℕ :=
  let w := sha256Extend (toWords32 chunk)
  let r0 : Sha256Regs := ⟨h.getD 0 0, h.getD 1 0, h.getD 2 0, h.getD 3 0,
    h.getD 4 0, h.getD 5 0, h.getD 6 0, h.getD 7 0⟩
  let r := (sha256K.zip w).foldl sha256Round r0
  [add32 (h.getD 0 0) r.a, add32 (h.getD 1 0) r.b, add32 (h.getD 2 0) r.c,
   add32 (h.getD 3 0) r.d, add32 (h.getD 4 0) r.e, add32 (h.getD 5 0) r.f,
   add32 (h.getD 6 0) r.g, add32 (h.getD 7 0) r.hh]

/-- Split into 64-byte chunks. -/
def chunks64 (l : List ℕ) : List (List ℕ) :=
  if h : l = [] then []
  else
    have : l.length - 64 < l.length := by
      cases l with
      | nil => exact absurd rfl h
      | cons x xs => simp; omega
    (l.take 64) :: chunks64 (l.drop 64)
termination_by l.length
decreasing_by simpa using this

/-- SHA-256 padding: `0x80`, zeros to 56 mod 64, then the 64-bit big-endian
bit length. -/
def sha256Pad (msg : List ℕ) : List ℕ :=
  let len := msg.length
  let zeros := (64 - ((len + 9) % 64)) % 64
  let bits := len * 8
  msg ++ [128] ++ List.replicate zeros 0 ++
    [(bits >>> 56) % 256, (bits >>> 48) % 256, (bits >>> 40) % 256,
     (bits >>> 32) % 256, (bits >>> 24) % 256, (bits >>> 16) % 256,
     (bits >>> 8) % 256, bits % 256]

/-- Big-endian bytes of a 32-bit word. -/
def wordBytes (w : ℕ) : List ℕ :=
  [(w >>> 24) % 256, (w >>> 16) % 256, (w >>> 8) % 256, w % 256]

/-- SHA-256 of a byte list: the 32 digest bytes. -/
def sha256 (msg : List ℕ) : List ℕ :=
  ((chunks64 (sha256Pad msg)).foldl sha256Compress sha256H0).flatMap wordBytes

/-- UTF-8 encoding of one character (what Go's `[]byte(string)` produces). -/
def utf8EncodeCharNat (c : Char) : List ℕ :=
  let n := c.toNat
  if n < 128 then [n]
  else if n < 2048 then [192 + n / 64, 128 + n % 64]
  else if n < 65536 then [224 + n / 4096, 128 + (n / 64) % 64, 128 + n % 64]
  else [240 + n / 262144, 128 + (n / 4096) % 64, 128 + (n / 64) % 64, 128 + n % 64]

/-- UTF-8 bytes of a string. -/
def utf8Bytes (s : String) : List ℕ := s.data.flatMap utf8EncodeCharNat

/-- Lowercase hex rendering of a byte list (Go's `hex.EncodeToString`). -/
def hexBytes (bs : List ℕ) : String :=
  String.mk (bs.flatMap (fun b =>
    let digits := "0123456789abcdef".data
    [digits.getD (b / 16 % 16) '0', digits.getD (b % 16) '0']))

/-- `Client.cacheKey`: hex SHA-256 over
`model|voice|format|speed(three decimals)|text`. -/
def cacheKey (model voice format : String) (speed : ℚ) (text : String) : String :=
  hexBytes (sha256 (utf8Bytes
    (model ++ "|" ++ voice ++ "|" ++ format ++ "|" ++ fmtFixed 3 speed ++ "|" ++ text)))

/-- `tts.extensionFromFormat`. -/
def extensionFromFormat (f : String) : String :=
  let f := goToLower (goTrimSpace f)
  if f = "mp3" then "mp3"
  else if f = "wav" then "wav"
  else if f = "aac" then "aac"
  else if f = "opus" then "opus"
  else if f = "flac" then "flac"
  else if f = "pcm" then "pcm"
  else "mp3"

/-- Joining a directory and a file name (`filepath.Join` on the already-clean
paths the client builds). -/
def joinPath (dir name : String) : String := dir ++ "/" ++ name

/-- The final artifact path computed by `Client.SpeakToFile` for an
already-prepared text: `cacheKey` plus the format-derived extension (with
the source's dead-code guard replacing an empty extension by `mp3`). -/
def speakFinalPath (cacheDir model voice format : String) (speed : ℚ)
    (text : String) : String :=
  let key := cacheKey model voice format speed text
  let ext := extensionFromFormat format
  let ext := if ext = "" then "mp3" else ext
  joinPath cacheDir (key ++ "." ++ ext)

/-- The input preparation of `Client.SpeakToFile`: trim, reject empty,
truncate to the first `maxTextChars` runes. -/
def speakPreparedText (maxTextChars : ℕ) (text : String) : Option String :=
  let t := goTrimSpace text
  if t = "" then none
  else if maxTextChars < t.data.length then some (String.mk (t.data.take maxTextChars))
  else some t

/-- The pure path skeleton of `Client.SpeakToFile`: preparation followed by
the artifact path (cache probing, single-flight and file IO act on this
path without changing it). -/
def speakToFilePath (cacheDir model voice format : String) (speed : ℚ)
    (maxTextChars : ℕ) (text : String) : Option String :=
  (speakPreparedText maxTextChars text).map
    (speakFinalPath cacheDir model voice format speed)

/-! ## Theorems -/

theorem broadcast_history_le (s : ServerState) (ev : Event)
    (h : s.history.length ≤ 500) :
    (Server.broadcast s ev).history.length ≤ 500 := by
  unfold Server.broadcast
  by_cases h1 : ev.type = "cloud"
  · simpa [h1] using h
  · by_cases h2 : ev.type = "cloud_pulse"
    · simpa [h1, h2] using h
    · by_cases h3 : 500 ≤ s.history.length
      · simp [h1, h2, h3, List.length_append, List.length_drop]
        omega
      · simp [h1, h2, h3, List.length_append]
        omega

theorem foldl_broadcast_history_le (evs : List Event) :
    ∀ s : ServerState, s.history.length ≤ 500 →
      ((evs.foldl Server.broadcast s).history.length ≤ 500) := by
  induction evs with
  | nil => intro s h; simpa using h
  | cons ev rest ih =>
      intro s h
      exact ih (Server.broadcast s ev) (broadcast_history_le s ev h)

/-- C7: over any sequence of broadcasts of non-cloud, non-pulse events the
stored history never exceeds 500 entries, and a broadcast that finds the
history at 500 or more entries compacts it to exactly the last 400 entries
before appending the new event. -/
theorem broadcast_history_bound :
    (∀ evs : List Event,
      (∀ ev ∈ evs, ev.type ≠ "cloud" ∧ ev.type ≠ "cloud_pulse") →
      ((evs.foldl Server.broadcast {}).history.length ≤ 500)) ∧
    (∀ (s : ServerState) (ev : Event), 500 ≤ s.history.length →
      ev.type ≠ "cloud" → ev.type ≠ "cloud_pulse" →
      (Server.broadcast s ev).history =
        s.history.drop (s.history.length - 400) ++ [ev] ∧
      (s.history.drop (s.history.length - 400)).length = 400) := by
  constructor
  · intro evs _
    exact foldl_broadcast_history_le evs {} (by simp [ServerState.history])
  · intro s ev hlen h1 h2
    constructor
    · simp [Server.broadcast, h1, h2, hlen]
    · simp [List.length_drop]
      omega

set_option maxRecDepth 4000 in
/-- Witness for C7 at concrete inputs: a singleton broadcast log, and a
broadcast against a history of exactly 500 entries. -/
theorem broadcast_history_bound_witness :
    ((([({ type := "base_up" } : Event)] : List Event).foldl Server.broadcast
        {}).history.length ≤ 500) ∧
    ((Server.broadcast { history := List.replicate 500 ({} : Event) }
        ({ type := "base_up" } : Event)).history =
      (List.replicate 500 ({} : Event)).drop
        ((List.replicate 500 ({} : Event)).length - 400) ++ [{ type := "base_up" }] ∧
      ((List.replicate 500 ({} : Event)).drop
        ((List.replicate 500 ({} : Event)).length - 400)).length = 400) := by
  constructor
  · exact broadcast_history_bound.1 [{ type := "base_up" }] (by decide)
  · exact broadcast_history_bound.2 { history := List.replicate 500 ({} : Event) }
      { type := "base_up" } (List.length_replicate 500 ({} : Event)).ge
      (by decide) (by decide)

theorem extensionFromFormat_ne_empty (f : String) : extensionFromFormat f ≠ "" := by
  simp only [extensionFromFormat]
  split_ifs <;> decide

/-- C8: the audio artifact path is `cache_dir/<hex(SHA-256(canonical))>.<ext>`
where the canonical string is `model|voice|format|speed(three decimals)|text`,
the extension is derived from the format (one of mp3, wav, aac, opus, flac,
pcm, any other format mapping to mp3), and the path is a deterministic
function of the five parameters. -/
theorem speak_path_deterministic :
    (∀ (cacheDir model voice format : String) (speed : ℚ) (text : String),
      speakFinalPath cacheDir model voice format speed text =
        joinPath cacheDir
          (hexBytes (sha256 (utf8Bytes
            (model ++ "|" ++ voice ++ "|" ++ format ++ "|" ++ fmtFixed 3 speed ++
              "|" ++ text))) ++ "." ++ extensionFromFormat format)) ∧
    (∀ format : String,
      extensionFromFormat format ∈ (["mp3", "wav", "aac", "opus", "flac", "pcm"] : List String)) ∧
    (∀ format : String,
      goToLower (goTrimSpace format) ∉ (["mp3", "wav", "aac", "opus", "flac", "pcm"] : List String) →
      extensionFromFormat format = "mp3") ∧
    (∀ (cacheDir model voice format : String) (speed : ℚ) (text : String)
        (cacheDir2 model2 voice2 format2 : String) (speed2 : ℚ) (text2 : String),
      cacheDir = cacheDir2 → model = model2 → voice = voice2 → format = format2 →
      speed = speed2 → text = text2 →
      speakFinalPath cacheDir model voice format speed text =
        speakFinalPath cacheDir2 model2 voice2 format2 speed2 text2) := by
  refine ⟨?_, ?_, ?_, ?_⟩
  · intro cacheDir model voice format speed text
    simp only [speakFinalPath, cacheKey]
    rw [if_neg (extensionFromFormat_ne_empty format)]
  · intro format
    simp only [extensionFromFormat]
    split_ifs <;> simp
  · intro format h
    simp only [extensionFromFormat]
    split_ifs <;>
      first
        | rfl
        | (exact absurd (by simp [*]) h)
  · intro cacheDir model voice format speed text cd2 m2 v2 f2 sp2 t2 e1 e2 e3 e4 e5 e6
    subst e1; subst e2; subst e3; subst e4; subst e5; subst e6
    rfl

/-- Witness for C8 at concrete inputs: an unknown format maps to `mp3`, and
determinism applied at equal concrete arguments. -/
theorem speak_path_deterministic_witness :
    extensionFromFormat "ogg" = "mp3" ∧
    speakFinalPath "./cache/audio" "tts-1-hd" "nova" "mp3" 1 "up" =
      speakFinalPath "./cache/audio" "tts-1-hd" "nova" "mp3" 1 "up" := by
  constructor
  · exact speak_path_deterministic.2.2.1 "ogg" (by decide)
  · exact speak_path_deterministic.2.2.2 "./cache/audio" "tts-1-hd" "nova" "mp3" 1 "up"
      "./cache/audio" "tts-1-hd" "nova" "mp3" 1 "up" rfl rfl rfl rfl rfl rfl

/-- C9: `SpeakToFile` trims its text; empty trimmed text fails and produces
no result; trimmed text longer than `max_text_chars` runes is truncated to
its first `max_text_chars` runes before fingerprinting; shorter text is used
as trimmed. -/
theorem speak_to_file_prepares_text
    (cacheDir model voice format : String) (speed : ℚ) (maxTextChars : ℕ)
    (text : String) :
    (speakToFilePath cacheDir model voice format speed maxTextChars text = none ↔
      goTrimSpace text = "") ∧
    (goTrimSpace text ≠ "" → maxTextChars < (goTrimSpace text).data.length →
      speakToFilePath cacheDir model voice format speed maxTextChars text =
        some (speakFinalPath cacheDir model voice format speed
          (String.mk ((goTrimSpace text).data.take maxTextChars))) ∧
      (String.mk ((goTrimSpace text).data.take maxTextChars)).data.length = maxTextChars) ∧
    (goTrimSpace text ≠ "" → (goTrimSpace text).data.length ≤ maxTextChars →
      speakToFilePath cacheDir model voice format speed maxTextChars text =
        some (speakFinalPath cacheDir model voice format speed (goTrimSpace text))) := by
  refine ⟨?_, ?_, ?_⟩
  · constructor
    · intro h
      by_cases he : goTrimSpace text = ""
      · exact he
      · exfalso
        simp only [speakToFilePath, speakPreparedText] at h
        rw [if_neg he] at h
        split_ifs at h <;> exact Option.noConfusion h
    · intro he
      simp only [speakToFilePath, speakPreparedText]
      rw [if_pos he]
      rfl
  · intro he hlong
    constructor
    · simp only [speakToFilePath, speakPreparedText]
      rw [if_neg he, if_pos hlong]
      rfl
    · show (List.take maxTextChars (goTrimSpace text).data).length = maxTextChars
      rw [List.length_take]
      exact Nat.min_eq_left (le_of_lt hlong)
  · intro he hshort
    simp only [speakToFilePath, speakPreparedText]
    rw [if_neg he, if_neg (not_lt.mpr hshort)]
    rfl

/-- Witness for C9 at concrete inputs: empty after trim fails, a two-rune
text truncates to one rune, and a short text is used trimmed. -/
theorem speak_to_file_prepares_text_witness :
    (speakToFilePath "d" "m" "v" "mp3" 1 1 "   " = none ↔ goTrimSpace "   " = "") ∧
    (speakToFilePath "d" "m" "v" "mp3" 1 1 " hi " =
      some (speakFinalPath "d" "m" "v" "mp3" 1 (String.mk ((goTrimSpace " hi ").data.take 1))) ∧
      (String.mk ((goTrimSpace " hi ").data.take 1)).data.length = 1) ∧
    (speakToFilePath "d" "m" "v" "mp3" 1 5 " hi " =
      some (speakFinalPath "d" "m" "v" "mp3" 1 (goTrimSpace " hi "))) := by
  refine ⟨?_, ?_, ?_⟩
  · exact (speak_to_file_prepares_text "d" "m" "v" "mp3" 1 1 "   ").1
  · exact (speak_to_file_prepares_text "d" "m" "v" "mp3" 1 1 " hi ").2.1
      (by decide) (by decide)
  · exact (speak_to_file_prepares_text "d" "m" "v" "mp3" 1 5 " hi ").2.2
      (by decide) (by decide)

/-- C10: a rejected rule-engine update (symbol absent from the watchlist,
symbol disabled, or non-positive price) returns an empty alert list and
leaves every existing per-symbol state unchanged; at most a fresh
zero-valued state record is allocated for the updated symbol. -/
theorem update_reject_preserves_state
    (cfg : EngineCfg) (wl : List WSymbol) (state : List (String × SymState))
    (symbol : String) (price volume : ℚ) (ts now : ℤ)
    (hrej : wlFind wl symbol = none ∨
      (∃ ws, wlFind wl symbol = some ws ∧ ws.enabled = some false) ∨ price ≤ 0) :
    (Engine.update cfg wl state symbol price volume ts now).1 = [] ∧
    (∀ s st, alookup state s = some st →
      alookup (Engine.update cfg wl state symbol price volume ts now).2 s = some st) ∧
    (∀ s, alookup (Engine.update cfg wl state symbol price volume ts now).2 s ≠
        alookup state s →
      s = symbol ∧ alookup state s = none ∧
      alookup (Engine.update cfg wl state symbol price volume ts now).2 s = some {}) := by
  cases hw : wlFind wl symbol with
  | none =>
      simp only [Engine.update, hw]
      exact ⟨by trivial, fun s st h => h, fun s h => absurd rfl h⟩
  | some ws =>
      by_cases hen : ws.enabled = some false
      · simp only [Engine.update, hw, if_pos hen]
        exact ⟨by trivial, fun s st h => h, fun s h => absurd rfl h⟩
      · have hp : price ≤ 0 := by
          rcases hrej with h | ⟨ws2, hw2, hen2⟩ | h
          · rw [hw] at h; exact Option.noConfusion h
          · rw [hw] at hw2
            exact absurd (Option.some.inj hw2 ▸ hen2) hen
          · exact h
        simp only [Engine.update, hw, if_neg hen, if_pos hp]
        by_cases hs : (alookup state symbol).isSome
        · simp only [if_pos hs]
          exact ⟨by trivial, fun s st h => h, fun s h => absurd rfl h⟩
        · simp only [if_neg hs]
          have hnone : alookup state symbol = none := by
            cases h : alookup state symbol with
            | none => rfl
            | some v => rw [h] at hs; simp at hs
          refine ⟨by trivial, ?_, ?_⟩
          · intro s st h
            by_cases hsym : s = symbol
            · rw [hsym] at h; rw [h] at hnone; exact Option.noConfusion hnone
            · rw [alookup_ainsert_ne state symbol {} s hsym]; exact h
          · intro s h
            by_cases hsym : s = symbol
            · subst hsym
              exact ⟨rfl, hnone, alookup_ainsert_self state s {}⟩
            · exact absurd (alookup_ainsert_ne state symbol {} s hsym) h

/-- Witness for C10 at a concrete input: a watchlisted enabled symbol with a
non-positive price, over a state holding one existing entry. -/
theorem update_reject_preserves_state_witness :
    ((Engine.update ⟨25, 300⟩ [⟨"AGQ", none, none, none, none, 0⟩]
        [("AGQ", { basePrice := 5 })] "AGQ" (-1) 0 1 1).1 = [] ∧
    (∀ s st, alookup [("AGQ", ({ basePrice := 5 } : SymState))] s = some st →
      alookup (Engine.update ⟨25, 300⟩ [⟨"AGQ", none, none, none, none, 0⟩]
        [("AGQ", { basePrice := 5 })] "AGQ" (-1) 0 1 1).2 s = some st) ∧
    (∀ s, alookup (Engine.update ⟨25, 300⟩ [⟨"AGQ", none, none, none, none, 0⟩]
        [("AGQ", { basePrice := 5 })] "AGQ" (-1) 0 1 1).2 s ≠
        alookup [("AGQ", ({ basePrice := 5 } : SymState))] s →
      s = "AGQ" ∧ alookup [("AGQ", ({ basePrice := 5 } : SymState))] s = none ∧
      alookup (Engine.update ⟨25, 300⟩ [⟨"AGQ", none, none, none, none, 0⟩]
        [("AGQ", { basePrice := 5 })] "AGQ" (-1) 0 1 1).2 s = some {})) :=
  update_reject_preserves_state ⟨25, 300⟩ [⟨"AGQ", none, none, none, none, 0⟩]
    [("AGQ", { basePrice := 5 })] "AGQ" (-1) 0 1 1
    (Or.inr (Or.inr (by norm_num)))

theorem edgeAlert_basePrice (cfg : EngineCfg) (ws : WSymbol) (st : SymState)
    (key : String) (c : Bool) (cd : ℤ) (a : AlertType) (sym : String) (p : ℚ)
    (m sp : String) (now : ℤ) :
    (edgeAlert cfg ws st key c cd a sym p m sp now).2.basePrice = st.basePrice := by
  simp only [edgeAlert]
  split_ifs <;> rfl

theorem baseChangeBlock_basePrice (cfg : EngineCfg) (ws : WSymbol) (st : SymState)
    (symbol : String) (price : ℚ) (now : ℤ) :
    (baseChangeBlock cfg ws st symbol price now).2.basePrice = st.basePrice := by
  unfold baseChangeBlock
  cases ws.baseChange with
  | none => rfl
  | some bc =>
      simp only []
      split_ifs <;> simp [edgeAlert_basePrice]

theorem momentumBlock_basePrice (cfg : EngineCfg) (ws : WSymbol) (st : SymState)
    (symbol : String) (price : ℚ) (ts now : ℤ) :
    (momentumBlock cfg ws st symbol price ts now).2.basePrice = st.basePrice := by
  unfold momentumBlock
  cases ws.momentum with
  | none => rfl
  | some m =>
      simp only []
      cases priceAtOrBefore st.hist (ts - momWindow m) with
      | none => rfl
      | some oldPrice =>
          by_cases hop : 0 < oldPrice
          · simp only [if_pos hop]
            split_ifs <;> simp [edgeAlert_basePrice]
          · simp only [if_neg hop]

theorem priceCrossBlock_basePrice (cfg : EngineCfg) (ws : WSymbol) (st : SymState)
    (symbol : String) (price : ℚ) (now : ℤ) :
    (priceCrossBlock cfg ws st symbol price now).2.basePrice = st.basePrice := by
  unfold priceCrossBlock
  cases ws.priceCross with
  | none => rfl
  | some pc =>
      simp only []
      split_ifs <;> simp [edgeAlert_basePrice]

theorem update_accept_basePrice (cfg : EngineCfg) (wl : List WSymbol)
    (state : List (String × SymState)) (symbol : String) (price volume : ℚ)
    (ts now : ℤ) (ws : WSymbol)
    (hws : wlFind wl symbol = some ws) (hen : ¬ ws.enabled = some false)
    (hp : 0 < price) :
    ∃ st', alookup (Engine.update cfg wl state symbol price volume ts now).2 symbol =
        some st' ∧
      st'.basePrice = (if ((alookup state symbol).getD {}).basePrice = 0 then price
        else ((alookup state symbol).getD {}).basePrice) := by
  simp only [Engine.update, hws, if_neg hen, if_neg (not_le.mpr hp)]
  refine ⟨_, alookup_ainsert_self _ _ _, ?_⟩
  simp only [priceCrossBlock_basePrice, momentumBlock_basePrice, baseChangeBlock_basePrice]
  split_ifs <;> rfl

theorem update_nonpos_lookup (cfg : EngineCfg) (wl : List WSymbol)
    (state : List (String × SymState)) (symbol : String) (price volume : ℚ)
    (ts now : ℤ) (hp : price ≤ 0) (s : String) :
    alookup (Engine.update cfg wl state symbol price volume ts now).2 s =
      alookup state s ∨
    (alookup state s = none ∧
      alookup (Engine.update cfg wl state symbol price volume ts now).2 s =
        some ({} : SymState)) := by
  cases hw : wlFind wl symbol with
  | none => left; simp [Engine.update, hw]
  | some ws =>
      by_cases hen : ws.enabled = some false
      · left; simp [Engine.update, hw, hen]
      · simp only [Engine.update, hw, if_neg hen, if_pos hp]
        by_cases hs : (alookup state symbol).isSome
        · left; simp [if_pos hs]
        · simp only [if_neg hs]
          by_cases hsym : s = symbol
          · subst hsym
            right
            have hnone : alookup state s = none := by
              cases h : alookup state s with
              | none => rfl
              | some v => rw [h] at hs; simp at hs
            exact ⟨hnone, alookup_ainsert_self _ _ _⟩
          · left; exact alookup_ainsert_ne state symbol {} s hsym

/-- The symbol's baseline is still unset: no stored state or a zero baseline. -/
def baseUnset (state : List (String × SymState)) (s : String) : Prop :=
  match alookup state s with
  | none => True
  | some st => st.basePrice = 0

/-- The symbol's stored baseline equals `p`. -/
def baseSetTo (state : List (String × SymState)) (s : String) (p : ℚ) : Prop :=
  ∃ st, alookup state s = some st ∧ st.basePrice = p

theorem run_base_main (cfg : EngineCfg) (wl : List WSymbol) (s : String)
    (ws : WSymbol) (hws : wlFind wl s = some ws) (hen : ¬ ws.enabled = some false) :
    ∀ (ticks : List Tick) (state : List (String × SymState)),
      (∀ tk ∈ ticks, tk.symbol = s) →
      ((baseUnset state s →
        (match firstPos ticks with
          | none => baseUnset (Engine.run cfg wl state ticks) s
          | some p => baseSetTo (Engine.run cfg wl state ticks) s p)) ∧
       (∀ p, p ≠ 0 → baseSetTo state s p →
          baseSetTo (Engine.run cfg wl state ticks) s p)) := by
  intro ticks
  induction ticks with
  | nil =>
      intro state _
      exact ⟨fun h => h, fun p _ h => h⟩
  | cons tk rest ih =>
      intro state hall
      have htk : tk.symbol = s := hall tk (List.mem_cons_self tk rest)
      have hrest : ∀ t ∈ rest, t.symbol = s := fun t ht => hall t (List.mem_cons_of_mem tk ht)
      have hrun : Engine.run cfg wl state (tk :: rest) =
          Engine.run cfg wl
            (Engine.update cfg wl state tk.symbol tk.price tk.volume tk.ts tk.now).2 rest := rfl
      constructor
      · intro hunset
        by_cases hp : 0 < tk.price
        · have hfp : firstPos (tk :: rest) = some tk.price := by
            simp [firstPos, List.find?, hp]
          rw [hfp, hrun]
          have hset : baseSetTo
              (Engine.update cfg wl state tk.symbol tk.price tk.volume tk.ts tk.now).2
              s tk.price := by
            rw [htk]
            obtain ⟨st', h1, h2⟩ := update_accept_basePrice cfg wl state s tk.price
              tk.volume tk.ts tk.now ws hws hen hp
            refine ⟨st', h1, ?_⟩
            unfold baseUnset at hunset
            cases hst : alookup state s with
            | none => rw [hst] at h2; simpa using h2
            | some st0 =>
                rw [hst] at hunset h2
                simpa [hunset] using h2
          exact (ih _ hrest).2 tk.price (ne_of_gt hp) hset
        · have hfp : firstPos (tk :: rest) = firstPos rest := by
            simp [firstPos, List.find?, hp]
          rw [hfp, hrun]
          have hunset' : baseUnset
              (Engine.update cfg wl state tk.symbol tk.price tk.volume tk.ts tk.now).2 s := by
            rcases update_nonpos_lookup cfg wl state tk.symbol tk.price tk.volume tk.ts
              tk.now (not_lt.mp hp) s with h | ⟨h1, h2⟩
            · unfold baseUnset at hunset ⊢
              rw [h]; exact hunset
            · unfold baseUnset
              rw [h2]
          exact (ih _ hrest).1 hunset'
      · intro p hpne hset
        rw [hrun]
        refine (ih _ hrest).2 p hpne ?_
        by_cases hp : 0 < tk.price
        · rw [htk]
          obtain ⟨st0, h1, h2⟩ := hset
          obtain ⟨st', h3, h4⟩ := update_accept_basePrice cfg wl state s tk.price
            tk.volume tk.ts tk.now ws hws hen hp
          rw [h1] at h4
          simp only [Option.getD_some] at h4
          rw [h2, if_neg hpne] at h4
          exact ⟨st', h3, h4⟩
        · rcases update_nonpos_lookup cfg wl state tk.symbol tk.price tk.volume tk.ts
            tk.now (not_lt.mp hp) s with h | ⟨h1, h2⟩
          · obtain ⟨st0, h3, h4⟩ := hset
            exact ⟨st0, h ▸ h3, h4⟩
          · obtain ⟨st0, h3, _⟩ := hset
            rw [h1] at h3; exact Option.noConfusion h3

/-- C2: for a watchlisted, enabled symbol the baseline price equals the price
of the first accepted update (the first call with a positive price) at every
later point of the run, whatever prices, volumes or timestamps follow. -/
theorem baseline_is_first_accepted_price (cfg : EngineCfg) (wl : List WSymbol)
    (s : String) (ws : WSymbol) (ticks : List Tick) (n : ℕ) (p : ℚ)
    (hws : wlFind wl s = some ws) (hen : ws.enabled ≠ some false)
    (hall : ∀ tk ∈ ticks, tk.symbol = s)
    (hfirst : firstPos (ticks.take n) = some p) :
    ∃ st, alookup (Engine.run cfg wl [] (ticks.take n)) s = some st ∧
      st.basePrice = p := by
  have hall' : ∀ tk ∈ ticks.take n, tk.symbol = s :=
    fun tk h => hall tk (List.mem_of_mem_take h)
  have h := (run_base_main cfg wl s ws hws hen (ticks.take n) [] hall').1 trivial
  rw [hfirst] at h
  exact h

/-- Witness for C2 at concrete inputs: a rejected zero-price tick followed by
two accepted ticks; the baseline stays at the first accepted price, 100. -/
theorem baseline_is_first_accepted_price_witness :
    ∃ st, alookup (Engine.run ⟨25, 300⟩ [⟨"AGQ", none, none, none, none, 0⟩] []
      (([⟨"AGQ", -1, 0, 1, 1⟩, ⟨"AGQ", 100, 0, 2, 2⟩, ⟨"AGQ", 101, 5, 3, 3⟩] :
        List Tick).take 3)) "AGQ" = some st ∧ st.basePrice = 100 :=
  baseline_is_first_accepted_price ⟨25, 300⟩ [⟨"AGQ", none, none, none, none, 0⟩]
    "AGQ" ⟨"AGQ", none, none, none, none, 0⟩
    [⟨"AGQ", -1, 0, 1, 1⟩, ⟨"AGQ", 100, 0, 2, 2⟩, ⟨"AGQ", 101, 5, 3, 3⟩] 3 100
    (by decide) (by decide) (by decide) (by decide)

theorem priceAtOrBefore_nil (target : ℤ) : priceAtOrBefore [] target = none := rfl

theorem priceAtOrBefore_cons_le (h : Pt) (t : List Pt) (target : ℤ)
    (hle : h.t ≤ target) :
    priceAtOrBefore (h :: t) target =
      some ((priceAtOrBefore t target).getD h.p) := by
  unfold priceAtOrBefore
  rw [List.takeWhile_cons, if_pos (by simpa using hle)]
  cases htw : t.takeWhile (fun p => decide (p.t ≤ target)) with
  | nil => simp [htw]
  | cons y ys =>
      rw [List.getLast?_cons_cons]
      cases hz : (y :: ys).getLast? with
      | none => exact absurd hz (by simp)
      | some z => simp [hz]

theorem priceAtOrBefore_cons_gt (h : Pt) (t : List Pt) (target : ℤ)
    (hgt : target < h.t) :
    priceAtOrBefore (h :: t) target = none := by
  unfold priceAtOrBefore
  rw [List.takeWhile_cons, if_neg (by simpa using not_le.mpr hgt)]
  rfl

theorem priceAtOrBefore_none_iff (hist : List Pt) (target : ℤ)
    (hsort : hist.Pairwise (fun a b => a.t ≤ b.t)) :
    priceAtOrBefore hist target = none ↔ ∀ q ∈ hist, target < q.t := by
  cases hist with
  | nil => simp [priceAtOrBefore_nil]
  | cons h t =>
      rcases List.pairwise_cons.mp hsort with ⟨hh, _⟩
      by_cases hle : h.t ≤ target
      · rw [priceAtOrBefore_cons_le h t target hle]
        constructor
        · intro hc; exact Option.noConfusion hc
        · intro hall
          exact absurd (hall h (List.mem_cons_self h t)) (not_lt.mpr hle)
      · rw [priceAtOrBefore_cons_gt h t target (not_le.mp hle)]
        constructor
        · intro _ q hq
          rcases List.mem_cons.mp hq with hq | hq
          · rw [hq]; exact not_le.mp hle
          · exact lt_of_lt_of_le (not_le.mp hle) (hh q hq)
        · intro _; rfl

theorem priceAtOrBefore_some_spec (hist : List Pt) (target : ℤ) (x : ℚ)
    (hsort : hist.Pairwise (fun a b => a.t ≤ b.t))
    (hx : priceAtOrBefore hist target = some x) :
    ∃ p, p ∈ hist ∧ p.p = x ∧ p.t ≤ target ∧
      ∀ q ∈ hist, q.t ≤ target → q.t ≤ p.t := by
  induction hist with
  | nil => exact Option.noConfusion hx
  | cons h t ih =>
      rcases List.pairwise_cons.mp hsort with ⟨hh, ht⟩
      by_cases hle : h.t ≤ target
      · rw [priceAtOrBefore_cons_le h t target hle] at hx
        cases hpt : priceAtOrBefore t target with
        | some y =>
            have hyx : y = x := by
              rw [hpt] at hx
              simpa using hx
            obtain ⟨p, hp1, hp2, hp3, hp4⟩ := ih ht (hyx ▸ hpt)
            refine ⟨p, List.mem_cons_of_mem h hp1, hp2, hp3, ?_⟩
            intro q hq hqt
            rcases List.mem_cons.mp hq with hq | hq
            · rw [hq]; exact hh p hp1
            · exact hp4 q hq hqt
        | none =>
            have hxh : h.p = x := by
              rw [hpt] at hx
              simpa using hx
            refine ⟨h, List.mem_cons_self h t, hxh, hle, ?_⟩
            intro q hq hqt
            rcases List.mem_cons.mp hq with hq | hq
            · rw [hq]
            · exact absurd hqt (not_le.mpr
                ((priceAtOrBefore_none_iff t target ht).mp hpt q hq))
      · rw [priceAtOrBefore_cons_gt h t target (not_le.mp hle)] at hx
        exact Option.noConfusion hx

/-- C6: over a time-ordered history, the momentum lookup returns the price of
the most recent point with `t ≤ ts − window`, reports not-found exactly when
no such point exists, and in that case the momentum rule section emits no
alerts and leaves the state untouched. -/
theorem momentum_lookup_spec :
    (∀ (hist : List Pt) (target : ℤ),
      hist.Pairwise (fun a b => a.t ≤ b.t) →
      (priceAtOrBefore hist target = none ↔ ∀ q ∈ hist, target < q.t)) ∧
    (∀ (hist : List Pt) (target : ℤ) (x : ℚ),
      hist.Pairwise (fun a b => a.t ≤ b.t) →
      priceAtOrBefore hist target = some x →
      ∃ p, p ∈ hist ∧ p.p = x ∧ p.t ≤ target ∧
        ∀ q ∈ hist, q.t ≤ target → q.t ≤ p.t) ∧
    (∀ (cfg : EngineCfg) (ws : WSymbol) (m : MomentumRule) (st : SymState)
        (symbol : String) (price : ℚ) (ts now : ℤ),
      ws.momentum = some m →
      priceAtOrBefore st.hist (ts - momWindow m) = none →
      momentumBlock cfg ws st symbol price ts now = ([], st)) := by
  refine ⟨priceAtOrBefore_none_iff, priceAtOrBefore_some_spec, ?_⟩
  intro cfg ws m st symbol price ts now hm hnone
  unfold momentumBlock
  rw [hm]
  simp only [hnone]

/-- Witness for C6 at concrete inputs: a two-point sorted history where the
lookup finds the older point, an empty history where it reports not-found,
and a momentum section that emits nothing on an empty history. -/
theorem momentum_lookup_spec_witness :
    (priceAtOrBefore [⟨5, 10, 0⟩] 0 = none ↔
      ∀ q ∈ [(⟨5, 10, 0⟩ : Pt)], (0 : ℤ) < q.t) ∧
    (∃ p, p ∈ [(⟨1, 7, 0⟩ : Pt), ⟨5, 10, 0⟩] ∧ p.p = 7 ∧ p.t ≤ 3 ∧
      ∀ q ∈ [(⟨1, 7, 0⟩ : Pt), ⟨5, 10, 0⟩], q.t ≤ 3 → q.t ≤ p.t) ∧
    (momentumBlock ⟨25, 300⟩ ⟨"A", none, none, some ⟨10, 1, 1, 0⟩, none, 0⟩ {}
      "A" 50 100 100 = ([], {})) := by
  refine ⟨?_, ?_, ?_⟩
  · exact momentum_lookup_spec.1 [⟨5, 10, 0⟩] 0 (by decide)
  · exact momentum_lookup_spec.2.1 [⟨1, 7, 0⟩, ⟨5, 10, 0⟩] 3 7 (by decide) (by decide)
  · exact momentum_lookup_spec.2.2 ⟨25, 300⟩ ⟨"A", none, none, some ⟨10, 1, 1, 0⟩, none, 0⟩
      ⟨10, 1, 1, 0⟩ {} "A" 50 100 100 rfl (by decide)

theorem normDeadband_pos (x : ℚ) : 0 < normDeadband x := by
  show 0 < if (if x < 0 then 0 else x) = 0 then (3/1000 : ℚ) else (if x < 0 then 0 else x)
  by_cases h1 : x < 0
  · rw [if_pos h1]
    norm_num
  · rw [if_neg h1]
    by_cases h2 : x = 0
    · rw [if_pos h2]
      norm_num
    · rw [if_neg h2]
      exact lt_of_le_of_ne (not_lt.mp h1) (Ne.symm h2)

theorem normStrength_pos (x : ℚ) : 0 < normStrength x := by
  show 0 < if (if x = 0 then (3/100 : ℚ) else x) < 0 then -(if x = 0 then (3/100 : ℚ) else x)
    else (if x = 0 then (3/100 : ℚ) else x)
  by_cases h1 : x = 0
  · rw [if_pos h1]
    norm_num
  · rw [if_neg h1]
    by_cases h2 : x < 0
    · rw [if_pos h2]
      linarith
    · rw [if_neg h2]
      exact lt_of_le_of_ne (not_lt.mp h2) (Ne.symm h1)

theorem normRates_fst_nonneg (mn mx : ℚ) : 0 ≤ (normRates mn mx).1 := by
  show 0 ≤ (if mn < 0 then 0 else mn)
  by_cases h : mn < 0
  · rw [if_pos h]
  · rw [if_neg h]
    exact not_lt.mp h

theorem normRates_fst_le_snd (mn mx : ℚ) : (normRates mn mx).1 ≤ (normRates mn mx).2 := by
  show (if mn < 0 then 0 else mn) ≤
    (if (if mx ≤ 0 then (12 : ℚ) else mx) < (if mn < 0 then 0 else mn)
      then (if mn < 0 then 0 else mn) else (if mx ≤ 0 then (12 : ℚ) else mx))
  by_cases h : (if mx ≤ 0 then (12 : ℚ) else mx) < (if mn < 0 then 0 else mn)
  · rw [if_pos h]
  · rw [if_neg h]
    exact not_lt.mp h

theorem clamp_mem (x lo hi : ℚ) (h : lo ≤ hi) :
    lo ≤ clamp x lo hi ∧ clamp x lo hi ≤ hi := by
  unfold clamp
  split_ifs <;> constructor <;> linarith

theorem inlineClamp_eq_clamp (raw cap : ℚ) (hcap : 0 ≤ cap) :
    (if cap < raw then cap else if raw < -cap then -cap else raw) =
      clamp raw (-cap) cap := by
  unfold clamp
  split_ifs <;> first | rfl | linarith

theorem cloudPulseOf_spec (cfg : CloudConfig) (st : CloudSym) (symbol : String)
    (price volume : ℚ) (ts : ℤ) (hsp : 0 < cfg.strengthPct) :
    (cloudPulseOf cfg st symbol price volume ts).deltaPct =
      (if 0 < |cfg.capMovePct| then
        clamp (rawDeltaPct st price) (-|cfg.capMovePct|) |cfg.capMovePct|
      else rawDeltaPct st price) ∧
    (0 < cfg.capMovePct →
      |(cloudPulseOf cfg st symbol price volume ts).deltaPct| ≤ cfg.capMovePct) ∧
    (cloudPulseOf cfg st symbol price volume ts).direction =
      (if 0 < (cloudPulseOf cfg st symbol price volume ts).deltaPct then "up"
       else if (cloudPulseOf cfg st symbol price volume ts).deltaPct < 0 then "down"
       else "flat") ∧
    ((cloudPulseOf cfg st symbol price volume ts).direction = "flat" ↔
      (cloudPulseOf cfg st symbol price volume ts).deltaPct = 0) ∧
    (cloudPulseOf cfg st symbol price volume ts).strength =
      clamp (|(cloudPulseOf cfg st symbol price volume ts).deltaPct| /
        cfg.strengthPct) 0 1 ∧
    0 ≤ (cloudPulseOf cfg st symbol price volume ts).strength ∧
    (cloudPulseOf cfg st symbol price volume ts).strength ≤ 1 := by
  have hd : (cloudPulseOf cfg st symbol price volume ts).deltaPct =
      (if 0 < |cfg.capMovePct| then
        clamp (rawDeltaPct st price) (-|cfg.capMovePct|) |cfg.capMovePct|
      else rawDeltaPct st price) := by
    show (if 0 < |cfg.capMovePct| then
        (if |cfg.capMovePct| < rawDeltaPct st price then |cfg.capMovePct|
         else if rawDeltaPct st price < -|cfg.capMovePct| then -|cfg.capMovePct|
         else rawDeltaPct st price)
      else rawDeltaPct st price) = _
    by_cases hcap : 0 < |cfg.capMovePct|
    · rw [if_pos hcap, if_pos hcap,
        inlineClamp_eq_clamp (rawDeltaPct st price) |cfg.capMovePct| (abs_nonneg _)]
    · rw [if_neg hcap, if_neg hcap]
  have hstr : (cloudPulseOf cfg st symbol price volume ts).strength =
      clamp (|(cloudPulseOf cfg st symbol price volume ts).deltaPct| /
        cfg.strengthPct) 0 1 := by
    show (if 0 < (if cfg.strengthPct = 0 then (3/100 : ℚ) else cfg.strengthPct) then
        clamp (|(cloudPulseOf cfg st symbol price volume ts).deltaPct| /
          (if cfg.strengthPct = 0 then (3/100 : ℚ) else cfg.strengthPct)) 0 1
      else 0) = _
    rw [if_neg (ne_of_gt hsp), if_pos hsp]
  refine ⟨hd, ?_, rfl, ?_, hstr, ?_, ?_⟩
  · intro hcappos
    have hcap : |cfg.capMovePct| = cfg.capMovePct := abs_of_pos hcappos
    have hcap0 : 0 < |cfg.capMovePct| := by rw [hcap]; exact hcappos
    rw [hd, if_pos hcap0]
    have hb := clamp_mem (rawDeltaPct st price) (-|cfg.capMovePct|) |cfg.capMovePct|
      (by linarith [abs_nonneg cfg.capMovePct])
    refine abs_le.mpr ⟨?_, ?_⟩
    · calc -cfg.capMovePct = -|cfg.capMovePct| := by rw [hcap]
        _ ≤ _ := hb.1
    · calc clamp (rawDeltaPct st price) (-|cfg.capMovePct|) |cfg.capMovePct| ≤
          |cfg.capMovePct| := hb.2
        _ = cfg.capMovePct := hcap
  · show ((if 0 < (cloudPulseOf cfg st symbol price volume ts).deltaPct then "up"
      else if (cloudPulseOf cfg st symbol price volume ts).deltaPct < 0 then "down"
      else "flat") = "flat") ↔ _
    split_ifs with h1 h2
    · exact iff_of_false (by decide) (by intro hh; rw [hh] at h1; exact lt_irrefl 0 h1)
    · exact iff_of_false (by decide) (by intro hh; rw [hh] at h2; exact lt_irrefl 0 h2)
    · exact iff_of_true rfl (le_antisymm (not_lt.mp h1) (not_lt.mp h2))
  · rw [hstr]
    exact (clamp_mem _ 0 1 (by norm_num)).1
  · rw [hstr]
    exact (clamp_mem _ 0 1 (by norm_num)).2

/-- C3: an accepted cloud update returns a pulse whose delta is the raw
percent delta against the stored last price, clamped symmetrically to
`cap_move_pct` when that is positive (so `|delta| ≤ cap_move_pct`), whose
direction is exactly the sign of the clamped delta (`flat` iff zero), and
whose strength is `|clamped| / strength_pct` clipped to `[0,1]`. -/
theorem cloud_update_pulse_fields (cfg₀ : CloudConfig) (wl : Option (List WSymbol))
    (s : CloudState) (symbol : String) (price volume : ℚ) (ts now : ℤ)
    (pulse : CloudPulse) (s' : CloudState)
    (hupd : CloudEngine.update (normCloudConfig cfg₀) wl s symbol price volume ts now =
      (some pulse, s')) :
    pulse.deltaPct =
      (if 0 < |(normCloudConfig cfg₀).capMovePct| then
        clamp (rawDeltaPct ((alookup s.syms symbol).getD {}) price)
          (-|(normCloudConfig cfg₀).capMovePct|) |(normCloudConfig cfg₀).capMovePct|
      else rawDeltaPct ((alookup s.syms symbol).getD {}) price) ∧
    (0 < (normCloudConfig cfg₀).capMovePct →
      |pulse.deltaPct| ≤ (normCloudConfig cfg₀).capMovePct) ∧
    pulse.direction = (if 0 < pulse.deltaPct then "up"
      else if pulse.deltaPct < 0 then "down" else "flat") ∧
    (pulse.direction = "flat" ↔ pulse.deltaPct = 0) ∧
    pulse.strength = clamp (|pulse.deltaPct| / (normCloudConfig cfg₀).strengthPct) 0 1 ∧
    0 ≤ pulse.strength ∧ pulse.strength ≤ 1 := by
  have hsp : 0 < (normCloudConfig cfg₀).strengthPct := normStrength_pos cfg₀.strengthPct
  unfold CloudEngine.update at hupd
  by_cases h1 : (!(normCloudConfig cfg₀).enabled) = true
  · rw [if_pos h1] at hupd
    exact absurd (congrArg Prod.fst hupd) (by simp)
  · rw [if_neg h1] at hupd
    by_cases h2 : price ≤ 0
    · rw [if_pos h2] at hupd
      exact absurd (congrArg Prod.fst hupd) (by simp)
    · rw [if_neg h2] at hupd
      by_cases h3 : (!cloudWlAccepts wl symbol) = true
      · rw [if_pos h3] at hupd
        exact absurd (congrArg Prod.fst hupd) (by simp)
      · rw [if_neg h3] at hupd
        have hp := congrArg Prod.fst hupd
        simp only [Option.some.injEq] at hp
        rw [← hp]
        exact cloudPulseOf_spec (normCloudConfig cfg₀)
          ((alookup s.syms symbol).getD {}) symbol price volume
          (if ts = 0 then now else ts) hsp

/-- Witness for C3 at a concrete accepted update (fresh symbol, delta 0). -/
theorem cloud_update_pulse_fields_witness :
    (⟨1, "A", 10, 0, 0, "flat", 0⟩ : CloudPulse).deltaPct =
      (if 0 < |(normCloudConfig ⟨true, 0, 0, 0, 0, 0, 0, 0, 0, 0⟩).capMovePct| then
        clamp (rawDeltaPct ((alookup ({} : CloudState).syms "A").getD {}) 10)
          (-|(normCloudConfig ⟨true, 0, 0, 0, 0, 0, 0, 0, 0, 0⟩).capMovePct|)
          |(normCloudConfig ⟨true, 0, 0, 0, 0, 0, 0, 0, 0, 0⟩).capMovePct|
      else rawDeltaPct ((alookup ({} : CloudState).syms "A").getD {}) 10) ∧
    (0 < (normCloudConfig ⟨true, 0, 0, 0, 0, 0, 0, 0, 0, 0⟩).capMovePct →
      |(⟨1, "A", 10, 0, 0, "flat", 0⟩ : CloudPulse).deltaPct| ≤
        (normCloudConfig ⟨true, 0, 0, 0, 0, 0, 0, 0, 0, 0⟩).capMovePct) ∧
    (⟨1, "A", 10, 0, 0, "flat", 0⟩ : CloudPulse).direction =
      (if 0 < (⟨1, "A", 10, 0, 0, "flat", 0⟩ : CloudPulse).deltaPct then "up"
       else if (⟨1, "A", 10, 0, 0, "flat", 0⟩ : CloudPulse).deltaPct < 0 then "down"
       else "flat") ∧
    ((⟨1, "A", 10, 0, 0, "flat", 0⟩ : CloudPulse).direction = "flat" ↔
      (⟨1, "A", 10, 0, 0, "flat", 0⟩ : CloudPulse).deltaPct = 0) ∧
    (⟨1, "A", 10, 0, 0, "flat", 0⟩ : CloudPulse).strength =
      clamp (|(⟨1, "A", 10, 0, 0, "flat", 0⟩ : CloudPulse).deltaPct| /
        (normCloudConfig ⟨true, 0, 0, 0, 0, 0, 0, 0, 0, 0⟩).strengthPct) 0 1 ∧
    0 ≤ (⟨1, "A", 10, 0, 0, "flat", 0⟩ : CloudPulse).strength ∧
    (⟨1, "A", 10, 0, 0, "flat", 0⟩ : CloudPulse).strength ≤ 1 :=
  cloud_update_pulse_fields ⟨true, 0, 0, 0, 0, 0, 0, 0, 0, 0⟩ none {} "A" 10 0 1 1
    ⟨1, "A", 10, 0, 0, "flat", 0⟩
    { syms := [("A", ⟨10, 0, 0, 1, true⟩)], ewma := 0, hasEwma := false }
    (by decide)

theorem snapDirection_flat_iff (score db : ℚ) (hdb : 0 < db) :
    snapDirection score db = "flat" ↔ |score| < db := by
  unfold snapDirection
  by_cases h1 : db ≤ |score|
  · rw [if_pos h1]
    by_cases h2 : 0 < score
    · rw [if_pos h2]
      exact iff_of_false (by decide) (not_lt.mpr h1)
    · rw [if_neg h2]
      by_cases h3 : score < 0
      · rw [if_pos h3]
        exact iff_of_false (by decide) (not_lt.mpr h1)
      · exfalso
        have hz : score = 0 := le_antisymm (not_lt.mp h2) (not_lt.mp h3)
        rw [hz] at h1
        simp at h1
        linarith
  · rw [if_neg h1]
    exact iff_of_true rfl (not_le.mp h1)

/-- C4: a snapshot of a cloud engine constructed through `NewCloudEngine` has
direction `flat` exactly when the absolute smoothed score is strictly below
the deadband. -/
theorem snapshot_flat_iff_deadband (cfg₀ : CloudConfig) (s : CloudState) (now : ℤ) :
    ((CloudEngine.snapshot (normCloudConfig cfg₀) s now).1.direction = "flat" ↔
      |(CloudEngine.snapshot (normCloudConfig cfg₀) s now).1.scorePct| <
        (normCloudConfig cfg₀).deadbandPct) :=
  snapDirection_flat_iff _ _ (normDeadband_pos cfg₀.deadbandPct)

theorem rateVal_bounds (mn mx st : ℚ) (hmn : 0 ≤ mn) (hle : mn ≤ mx)
    (h0 : 0 ≤ st) (h1 : st ≤ 1) :
    mn ≤ (if mn + st * (mx - mn) < 0 then 0 else mn + st * (mx - mn)) ∧
    (if mn + st * (mx - mn) < 0 then 0 else mn + st * (mx - mn)) ≤ mx := by
  have hr1 : mn ≤ mn + st * (mx - mn) := by nlinarith
  have hr2 : mn + st * (mx - mn) ≤ mx := by nlinarith
  rw [if_neg (not_lt.mpr (le_trans hmn hr1))]
  exact ⟨hr1, hr2⟩

theorem snapshot_vals_bounds (cfg : CloudConfig) (score : ℚ)
    (hmn : 0 ≤ cfg.minRateHz) (hle : cfg.minRateHz ≤ cfg.maxRateHz)
    (hnf : snapDirection score cfg.deadbandPct ≠ "flat") :
    (0 ≤ (if snapDirection score cfg.deadbandPct = "flat" then (0 : ℚ)
      else clamp (|score| / (if cfg.strengthPct = 0 then (3/100 : ℚ)
        else cfg.strengthPct)) 0 1)) ∧
    ((if snapDirection score cfg.deadbandPct = "flat" then (0 : ℚ)
      else clamp (|score| / (if cfg.strengthPct = 0 then (3/100 : ℚ)
        else cfg.strengthPct)) 0 1) ≤ 1) ∧
    (cfg.minRateHz ≤ (if snapDirection score cfg.deadbandPct = "flat" then (0 : ℚ)
      else (if cfg.minRateHz + (if snapDirection score cfg.deadbandPct = "flat" then (0 : ℚ)
          else clamp (|score| / (if cfg.strengthPct = 0 then (3/100 : ℚ)
            else cfg.strengthPct)) 0 1) * (cfg.maxRateHz - cfg.minRateHz) < 0 then 0
        else cfg.minRateHz + (if snapDirection score cfg.deadbandPct = "flat" then (0 : ℚ)
          else clamp (|score| / (if cfg.strengthPct = 0 then (3/100 : ℚ)
            else cfg.strengthPct)) 0 1) * (cfg.maxRateHz - cfg.minRateHz)))) ∧
    ((if snapDirection score cfg.deadbandPct = "flat" then (0 : ℚ)
      else (if cfg.minRateHz + (if snapDirection score cfg.deadbandPct = "flat" then (0 : ℚ)
          else clamp (|score| / (if cfg.strengthPct = 0 then (3/100 : ℚ)
            else cfg.strengthPct)) 0 1) * (cfg.maxRateHz - cfg.minRateHz) < 0 then 0
        else cfg.minRateHz + (if snapDirection score cfg.deadbandPct = "flat" then (0 : ℚ)
          else clamp (|score| / (if cfg.strengthPct = 0 then (3/100 : ℚ)
            else cfg.strengthPct)) 0 1) * (cfg.maxRateHz - cfg.minRateHz))) ≤
      cfg.maxRateHz) := by
  rw [if_neg hnf, if_neg hnf]
  have h01 := clamp_mem (|score| / (if cfg.strengthPct = 0 then (3/100 : ℚ)
    else cfg.strengthPct)) 0 1 (by norm_num)
  have hr := rateVal_bounds cfg.minRateHz cfg.maxRateHz
    (clamp (|score| / (if cfg.strengthPct = 0 then (3/100 : ℚ) else cfg.strengthPct)) 0 1)
    hmn hle h01.1 h01.2
  exact ⟨h01.1, h01.2, hr.1, hr.2⟩

/-- C5: every non-flat snapshot of a cloud engine constructed through
`NewCloudEngine` has strength in `[0,1]` and rate in
`[min_rate_hz, max_rate_hz]` (the configured rates after construction). -/
theorem snapshot_strength_rate_bounds (cfg₀ : CloudConfig) (s : CloudState) (now : ℤ)
    (hnf : (CloudEngine.snapshot (normCloudConfig cfg₀) s now).1.direction ≠ "flat") :
    0 ≤ (CloudEngine.snapshot (normCloudConfig cfg₀) s now).1.strength ∧
    (CloudEngine.snapshot (normCloudConfig cfg₀) s now).1.strength ≤ 1 ∧
    (normCloudConfig cfg₀).minRateHz ≤
      (CloudEngine.snapshot (normCloudConfig cfg₀) s now).1.rateHz ∧
    (CloudEngine.snapshot (normCloudConfig cfg₀) s now).1.rateHz ≤
      (normCloudConfig cfg₀).maxRateHz :=
  snapshot_vals_bounds (normCloudConfig cfg₀) _
    (normRates_fst_nonneg cfg₀.minRateHz cfg₀.maxRateHz)
    (normRates_fst_le_snd cfg₀.minRateHz cfg₀.maxRateHz) hnf

/-- Witness for C5 at a concrete input: a configuration of defaults and one
fresh per-symbol delta of +1 %, yielding an `up` snapshot. -/
theorem snapshot_strength_rate_bounds_witness :
    0 ≤ (CloudEngine.snapshot (normCloudConfig ⟨true, 0, 0, 0, 0, 0, 0, 0, 0, 0⟩)
      { syms := [("A", ⟨1, 1, 0, 100, true⟩)], ewma := 0, hasEwma := false }
      100).1.strength ∧
    (CloudEngine.snapshot (normCloudConfig ⟨true, 0, 0, 0, 0, 0, 0, 0, 0, 0⟩)
      { syms := [("A", ⟨1, 1, 0, 100, true⟩)], ewma := 0, hasEwma := false }
      100).1.strength ≤ 1 ∧
    (normCloudConfig ⟨true, 0, 0, 0, 0, 0, 0, 0, 0, 0⟩).minRateHz ≤
      (CloudEngine.snapshot (normCloudConfig ⟨true, 0, 0, 0, 0, 0, 0, 0, 0, 0⟩)
        { syms := [("A", ⟨1, 1, 0, 100, true⟩)], ewma := 0, hasEwma := false }
        100).1.rateHz ∧
    (CloudEngine.snapshot (normCloudConfig ⟨true, 0, 0, 0, 0, 0, 0, 0, 0, 0⟩)
      { syms := [("A", ⟨1, 1, 0, 100, true⟩)], ewma := 0, hasEwma := false }
      100).1.rateHz ≤
      (normCloudConfig ⟨true, 0, 0, 0, 0, 0, 0, 0, 0, 0⟩).maxRateHz :=
  snapshot_strength_rate_bounds ⟨true, 0, 0, 0, 0, 0, 0, 0, 0, 0⟩
    { syms := [("A", ⟨1, 1, 0, 100, true⟩)], ewma := 0, hasEwma := false }
    100 (by decide)

section EdgeGate

variable (cfg : EngineCfg) (ws : WSymbol) (key : String) (cooldown : ℤ)
  (atype : AlertType) (symbol : String)

theorem edgeAlert_false (st : SymState) (s : EdgeStep) (hc : s.condition = false) :
    (edgeAlert cfg ws st key s.condition cooldown atype symbol s.price s.message
      s.speak s.now).1 = [] ∧
    (alookup (edgeAlert cfg ws st key s.condition cooldown atype symbol s.price
      s.message s.speak s.now).2.active key).getD false = false ∧
    (edgeAlert cfg ws st key s.condition cooldown atype symbol s.price s.message
      s.speak s.now).2.lastAlert = st.lastAlert := by
  unfold edgeAlert
  rw [hc]
  simp [alookup_ainsert_self]

theorem edgeAlert_prevTrue (st : SymState) (s : EdgeStep) (hc : s.condition = true)
    (hprev : (alookup st.active key).getD false = true) :
    (edgeAlert cfg ws st key s.condition cooldown atype symbol s.price s.message
      s.speak s.now).1 = [] ∧
    (alookup (edgeAlert cfg ws st key s.condition cooldown atype symbol s.price
      s.message s.speak s.now).2.active key).getD false = true ∧
    (edgeAlert cfg ws st key s.condition cooldown atype symbol s.price s.message
      s.speak s.now).2.lastAlert = st.lastAlert := by
  unfold edgeAlert
  rw [hc, hprev]
  simp [alookup_ainsert_self]

theorem edgeAlert_fire_noLast (st : SymState) (s : EdgeStep) (hc : s.condition = true)
    (hprev : (alookup st.active key).getD false = false)
    (hlast : alookup st.lastAlert key = none) :
    (edgeAlert cfg ws st key s.condition cooldown atype symbol s.price s.message
      s.speak s.now).1 =
      [{ type := atype, symbol := symbol, price := s.price, message := s.message,
         speakText := s.speak }] ∧
    (alookup (edgeAlert cfg ws st key s.condition cooldown atype symbol s.price
      s.message s.speak s.now).2.active key).getD false = true ∧
    alookup (edgeAlert cfg ws st key s.condition cooldown atype symbol s.price
      s.message s.speak s.now).2.lastAlert key = some s.now := by
  simp [edgeAlert, hc, hprev, hlast, alookup_ainsert_self]

theorem edgeAlert_prevFalse_last (st : SymState) (s : EdgeStep) (t : ℤ)
    (hc : s.condition = true)
    (hprev : (alookup st.active key).getD false = false)
    (hlast : alookup st.lastAlert key = some t) :
    (s.now - t < resolveCooldown cfg ws cooldown →
      (edgeAlert cfg ws st key s.condition cooldown atype symbol s.price s.message
        s.speak s.now).1 = [] ∧
      (alookup (edgeAlert cfg ws st key s.condition cooldown atype symbol s.price
        s.message s.speak s.now).2.active key).getD false = true ∧
      (edgeAlert cfg ws st key s.condition cooldown atype symbol s.price s.message
        s.speak s.now).2.lastAlert = st.lastAlert) ∧
    (resolveCooldown cfg ws cooldown ≤ s.now - t →
      (edgeAlert cfg ws st key s.condition cooldown atype symbol s.price s.message
        s.speak s.now).1 =
        [{ type := atype, symbol := symbol, price := s.price, message := s.message,
           speakText := s.speak }] ∧
      (alookup (edgeAlert cfg ws st key s.condition cooldown atype symbol s.price
        s.message s.speak s.now).2.active key).getD false = true ∧
      alookup (edgeAlert cfg ws st key s.condition cooldown atype symbol s.price
        s.message s.speak s.now).2.lastAlert key = some s.now) := by
  constructor
  · intro hcd
    simp [edgeAlert, hc, hprev, hlast, not_le.mpr hcd, alookup_ainsert_self]
  · intro hcd
    simp [edgeAlert, hc, hprev, hlast, hcd, alookup_ainsert_self]

theorem runEdge_cons (st : SymState) (s : EdgeStep) (rest : List EdgeStep) :
    runEdge cfg ws key cooldown atype symbol st (s :: rest) =
      ((edgeAlert cfg ws st key s.condition cooldown atype symbol s.price s.message
          s.speak s.now).1 ++
        (runEdge cfg ws key cooldown atype symbol
          (edgeAlert cfg ws st key s.condition cooldown atype symbol s.price s.message
            s.speak s.now).2 rest).1,
       (runEdge cfg ws key cooldown atype symbol
          (edgeAlert cfg ws st key s.condition cooldown atype symbol s.price s.message
            s.speak s.now).2 rest).2) := rfl

theorem runEdge_all_false (steps : List EdgeStep) :
    ∀ st : SymState, (∀ x ∈ steps, x.condition = false) →
      (runEdge cfg ws key cooldown atype symbol st steps).1 = [] ∧
      (runEdge cfg ws key cooldown atype symbol st steps).2.lastAlert = st.lastAlert ∧
      ((alookup (runEdge cfg ws key cooldown atype symbol st steps).2.active key).getD
          false = (alookup st.active key).getD false ∨
        (alookup (runEdge cfg ws key cooldown atype symbol st steps).2.active key).getD
          false = false) := by
  induction steps with
  | nil => intro st _; exact ⟨rfl, rfl, Or.inl rfl⟩
  | cons s rest ih =>
      intro st hall
      have hs : s.condition = false := hall s (List.mem_cons_self s rest)
      have hrest : ∀ x ∈ rest, x.condition = false :=
        fun x hx => hall x (List.mem_cons_of_mem s hx)
      obtain ⟨h1, h2, h3⟩ := edgeAlert_false cfg ws key cooldown atype symbol st s hs
      rw [runEdge_cons]
      obtain ⟨g1, g2, g3⟩ := ih (edgeAlert cfg ws st key s.condition cooldown atype
        symbol s.price s.message s.speak s.now).2 hrest
      refine ⟨by simp [h1, g1], by rw [g2, h3], ?_⟩
      rcases g3 with g3 | g3
      · right; rw [g3, h2]
      · right; exact g3

theorem runEdge_all_true (steps : List EdgeStep) :
    ∀ st : SymState, (∀ x ∈ steps, x.condition = true) →
      (alookup st.active key).getD false = true →
      (runEdge cfg ws key cooldown atype symbol st steps).1 = [] ∧
      (runEdge cfg ws key cooldown atype symbol st steps).2.lastAlert = st.lastAlert ∧
      (alookup (runEdge cfg ws key cooldown atype symbol st steps).2.active key).getD
        false = true := by
  induction steps with
  | nil => intro st _ hprev; exact ⟨rfl, rfl, hprev⟩
  | cons s rest ih =>
      intro st hall hprev
      have hs : s.condition = true := hall s (List.mem_cons_self s rest)
      have hrest : ∀ x ∈ rest, x.condition = true :=
        fun x hx => hall x (List.mem_cons_of_mem s hx)
      obtain ⟨h1, h2, h3⟩ := edgeAlert_prevTrue cfg ws key cooldown atype symbol st s hs hprev
      rw [runEdge_cons]
      obtain ⟨g1, g2, g3⟩ := ih (edgeAlert cfg ws st key s.condition cooldown atype
        symbol s.price s.message s.speak s.now).2 hrest h2
      exact ⟨by simp [h1, g1], by rw [g2, h3], g3⟩

theorem runEdge_all_false_ne (steps : List EdgeStep) (hne : steps ≠ []) :
    ∀ st : SymState, (∀ x ∈ steps, x.condition = false) →
      (alookup (runEdge cfg ws key cooldown atype symbol st steps).2.active key).getD
        false = false := by
  induction steps with
  | nil => exact absurd rfl hne
  | cons s rest ih =>
      intro st hall
      have hs : s.condition = false := hall s (List.mem_cons_self s rest)
      have hrest : ∀ x ∈ rest, x.condition = false :=
        fun x hx => hall x (List.mem_cons_of_mem s hx)
      rw [runEdge_cons]
      cases rest with
      | nil =>
          exact (edgeAlert_false cfg ws key cooldown atype symbol st s hs).2.1
      | cons y ys =>
          exact ih (by simp) (edgeAlert cfg ws st key s.condition cooldown atype
            symbol s.price s.message s.speak s.now).2 hrest

theorem runEdge_append (xs ys : List EdgeStep) :
    ∀ st : SymState,
      runEdge cfg ws key cooldown atype symbol st (xs ++ ys) =
        ((runEdge cfg ws key cooldown atype symbol st xs).1 ++
          (runEdge cfg ws key cooldown atype symbol
            (runEdge cfg ws key cooldown atype symbol st xs).2 ys).1,
         (runEdge cfg ws key cooldown atype symbol
            (runEdge cfg ws key cooldown atype symbol st xs).2 ys).2) := by
  induction xs with
  | nil => intro st; simp [runEdge]
  | cons s rest ih =>
      intro st
      rw [List.cons_append, runEdge_cons, runEdge_cons, ih]
      simp [List.append_assoc]

theorem edgeAlert_fires_iff (st : SymState) (s : EdgeStep) :
    (edgeAlert cfg ws st key s.condition cooldown atype symbol s.price s.message
      s.speak s.now).1 ≠ [] ↔
    (s.condition = true ∧ (alookup st.active key).getD false = false ∧
      ∀ t, alookup st.lastAlert key = some t →
        resolveCooldown cfg ws cooldown ≤ s.now - t) := by
  cases hc : s.condition with
  | false =>
      obtain ⟨h1, _, _⟩ := edgeAlert_false cfg ws key cooldown atype symbol st s hc
      rw [hc] at h1
      rw [h1]
      exact iff_of_false (by simp) (fun h => Bool.noConfusion h.1)
  | true =>
      cases hprev : (alookup st.active key).getD false with
      | true =>
          obtain ⟨h1, _, _⟩ := edgeAlert_prevTrue cfg ws key cooldown atype symbol st s hc hprev
          rw [hc] at h1
          rw [h1]
          exact iff_of_false (by simp) (fun h => Bool.noConfusion h.2.1)
      | false =>
          cases hlast : alookup st.lastAlert key with
          | none =>
              obtain ⟨h1, _, _⟩ := edgeAlert_fire_noLast cfg ws key cooldown atype
                symbol st s hc hprev hlast
              rw [hc] at h1
              rw [h1]
              refine iff_of_true (by simp) ⟨rfl, rfl, ?_⟩
              intro t ht
              exact Option.noConfusion ht
          | some t0 =>
              obtain ⟨hA, hB⟩ := edgeAlert_prevFalse_last cfg ws key cooldown atype
                symbol st s t0 hc hprev hlast
              by_cases hcd : resolveCooldown cfg ws cooldown ≤ s.now - t0
              · obtain ⟨h1, _, _⟩ := hB hcd
                rw [hc] at h1
                rw [h1]
                refine iff_of_true (by simp) ⟨rfl, rfl, ?_⟩
                intro t ht
                cases Option.some.inj ht
                exact hcd
              · obtain ⟨h1, _, _⟩ := hA (not_le.mp hcd)
                rw [hc] at h1
                rw [h1]
                exact iff_of_false (by simp) (fun h => hcd (h.2.2 t0 rfl))

theorem runEdge_two_edges (st₀ : SymState)
    (f₁ : List EdgeStep) (e₁ : EdgeStep) (t₂ f₃ : List EdgeStep) (e₂ : EdgeStep)
    (t₄ f₅ : List EdgeStep)
    (h0a : (alookup st₀.active key).getD false = false)
    (h0l : alookup st₀.lastAlert key = none)
    (hf₁ : ∀ x ∈ f₁, x.condition = false)
    (he₁ : e₁.condition = true)
    (ht₂ : ∀ x ∈ t₂, x.condition = true)
    (hf₃ : ∀ x ∈ f₃, x.condition = false)
    (hf₃ne : f₃ ≠ [])
    (he₂ : e₂.condition = true)
    (ht₄ : ∀ x ∈ t₄, x.condition = true)
    (hf₅ : ∀ x ∈ f₅, x.condition = false) :
    (e₂.now - e₁.now < resolveCooldown cfg ws cooldown →
      (runEdge cfg ws key cooldown atype symbol st₀
        (f₁ ++ e₁ :: (t₂ ++ (f₃ ++ e₂ :: (t₄ ++ f₅))))).1.length = 1) ∧
    (resolveCooldown cfg ws cooldown < e₂.now - e₁.now →
      (runEdge cfg ws key cooldown atype symbol st₀
        (f₁ ++ e₁ :: (t₂ ++ (f₃ ++ e₂ :: (t₄ ++ f₅))))).1.length = 2) := by
  obtain ⟨a1, a2, a3⟩ := runEdge_all_false cfg ws key cooldown atype symbol f₁ st₀ hf₁
  have hAa : (alookup (runEdge cfg ws key cooldown atype symbol st₀ f₁).2.active
      key).getD false = false := by
    rcases a3 with h | h
    · exact h.trans h0a
    · exact h
  have hAl : alookup (runEdge cfg ws key cooldown atype symbol st₀ f₁).2.lastAlert
      key = none := by rw [a2]; exact h0l
  obtain ⟨b1, b2, b3⟩ := edgeAlert_fire_noLast cfg ws key cooldown atype symbol
    (runEdge cfg ws key cooldown atype symbol st₀ f₁).2 e₁ he₁ hAa hAl
  obtain ⟨c1, c2, c3⟩ := runEdge_all_true cfg ws key cooldown atype symbol t₂
    (edgeAlert cfg ws (runEdge cfg ws key cooldown atype symbol st₀ f₁).2 key
      e₁.condition cooldown atype symbol e₁.price e₁.message e₁.speak e₁.now).2
    ht₂ b2
  have hCl : alookup (runEdge cfg ws key cooldown atype symbol
      (edgeAlert cfg ws (runEdge cfg ws key cooldown atype symbol st₀ f₁).2 key
        e₁.condition cooldown atype symbol e₁.price e₁.message e₁.speak e₁.now).2
      t₂).2.lastAlert key = some e₁.now := by rw [c2]; exact b3
  obtain ⟨d1, d2, _⟩ := runEdge_all_false cfg ws key cooldown atype symbol f₃
    (runEdge cfg ws key cooldown atype symbol
      (edgeAlert cfg ws (runEdge cfg ws key cooldown atype symbol st₀ f₁).2 key
        e₁.condition cooldown atype symbol e₁.price e₁.message e₁.speak e₁.now).2
      t₂).2 hf₃
  have d3 := runEdge_all_false_ne cfg ws key cooldown atype symbol f₃ hf₃ne
    (runEdge cfg ws key cooldown atype symbol
      (edgeAlert cfg ws (runEdge cfg ws key cooldown atype symbol st₀ f₁).2 key
        e₁.condition cooldown atype symbol e₁.price e₁.message e₁.speak e₁.now).2
      t₂).2 hf₃
  have hDl : alookup (runEdge cfg ws key cooldown atype symbol
      (runEdge cfg ws key cooldown atype symbol
        (edgeAlert cfg ws (runEdge cfg ws key cooldown atype symbol st₀ f₁).2 key
          e₁.condition cooldown atype symbol e₁.price e₁.message e₁.speak e₁.now).2
        t₂).2 f₃).2.lastAlert key = some e₁.now := by rw [d2]; exact hCl
  obtain ⟨hA, hB⟩ := edgeAlert_prevFalse_last cfg ws key cooldown atype symbol
    (runEdge cfg ws key cooldown atype symbol
      (runEdge cfg ws key cooldown atype symbol
        (edgeAlert cfg ws (runEdge cfg ws key cooldown atype symbol st₀ f₁).2 key
          e₁.condition cooldown atype symbol e₁.price e₁.message e₁.speak e₁.now).2
        t₂).2 f₃).2 e₂ e₁.now he₂ d3 hDl
  constructor
  · intro hcd
    obtain ⟨p1, p2, _⟩ := hA hcd
    obtain ⟨q1, q2, q3⟩ := runEdge_all_true cfg ws key cooldown atype symbol t₄ _ ht₄ p2
    obtain ⟨r1, _, _⟩ := runEdge_all_false cfg ws key cooldown atype symbol f₅ _ hf₅
    simp only [runEdge_append, runEdge_cons, List.length_append]
    rw [a1, b1, c1, d1, p1, q1, r1]
    simp
  · intro hcd
    obtain ⟨p1, p2, _⟩ := hB (le_of_lt hcd)
    obtain ⟨q1, q2, q3⟩ := runEdge_all_true cfg ws key cooldown atype symbol t₄ _ ht₄ p2
    obtain ⟨r1, _, _⟩ := runEdge_all_false cfg ws key cooldown atype symbol f₅ _ hf₅
    simp only [runEdge_append, runEdge_cons, List.length_append]
    rw [a1, b1, c1, d1, p1, q1, r1]
    simp

end EdgeGate

/-- C1: the edge + cooldown gate fires exactly when the condition is true,
the previously stored active flag was false, and at least the resolved
cooldown has elapsed since the key's last firing; consequently, over a
sequence of updates for one rule key, two successive false→true transitions
of the condition separated by less than the cooldown produce exactly one
alert, and separated by more than the cooldown exactly two alerts. -/
theorem edge_cooldown_gate_spec :
    (∀ (cfg : EngineCfg) (ws : WSymbol) (key : String) (cooldown : ℤ)
        (atype : AlertType) (symbol : String) (st : SymState) (s : EdgeStep),
      (edgeAlert cfg ws st key s.condition cooldown atype symbol s.price s.message
        s.speak s.now).1 ≠ [] ↔
      (s.condition = true ∧ (alookup st.active key).getD false = false ∧
        ∀ t, alookup st.lastAlert key = some t →
          resolveCooldown cfg ws cooldown ≤ s.now - t)) ∧
    (∀ (cfg : EngineCfg) (ws : WSymbol) (key : String) (cooldown : ℤ)
        (atype : AlertType) (symbol : String) (st₀ : SymState)
        (f₁ : List EdgeStep) (e₁ : EdgeStep) (t₂ f₃ : List EdgeStep) (e₂ : EdgeStep)
        (t₄ f₅ : List EdgeStep),
      (alookup st₀.active key).getD false = false →
      alookup st₀.lastAlert key = none →
      (∀ x ∈ f₁, x.condition = false) →
      e₁.condition = true →
      (∀ x ∈ t₂, x.condition = true) →
      (∀ x ∈ f₃, x.condition = false) →
      f₃ ≠ [] →
      e₂.condition = true →
      (∀ x ∈ t₄, x.condition = true) →
      (∀ x ∈ f₅, x.condition = false) →
      ((e₂.now - e₁.now < resolveCooldown cfg ws cooldown →
        (runEdge cfg ws key cooldown atype symbol st₀
          (f₁ ++ e₁ :: (t₂ ++ (f₃ ++ e₂ :: (t₄ ++ f₅))))).1.length = 1) ∧
       (resolveCooldown cfg ws cooldown < e₂.now - e₁.now →
        (runEdge cfg ws key cooldown atype symbol st₀
          (f₁ ++ e₁ :: (t₂ ++ (f₃ ++ e₂ :: (t₄ ++ f₅))))).1.length = 2))) :=
  ⟨edgeAlert_fires_iff, runEdge_two_edges⟩

/-- Witness for C1 at concrete inputs: the gate characterization at a fresh
state, one rising edge repeated 10 ns later (inside the default 25 s
cooldown) yielding one alert, and repeated 50 s later yielding two. -/
theorem edge_cooldown_gate_spec_witness :
    ((edgeAlert ⟨25000000000, 300000000000⟩ ⟨"A", none, none, none, none, 0⟩ {}
        "base_up" (⟨true, 5, 1, "m", "s"⟩ : EdgeStep).condition 0 AlertType.baseUp "A"
        (⟨true, 5, 1, "m", "s"⟩ : EdgeStep).price
        (⟨true, 5, 1, "m", "s"⟩ : EdgeStep).message
        (⟨true, 5, 1, "m", "s"⟩ : EdgeStep).speak
        (⟨true, 5, 1, "m", "s"⟩ : EdgeStep).now).1 ≠ [] ↔
      ((⟨true, 5, 1, "m", "s"⟩ : EdgeStep).condition = true ∧
        (alookup ({} : SymState).active "base_up").getD false = false ∧
        ∀ t, alookup ({} : SymState).lastAlert "base_up" = some t →
          resolveCooldown ⟨25000000000, 300000000000⟩ ⟨"A", none, none, none, none, 0⟩ 0 ≤
            (⟨true, 5, 1, "m", "s"⟩ : EdgeStep).now - t)) ∧
    (runEdge ⟨25000000000, 300000000000⟩ ⟨"A", none, none, none, none, 0⟩ "base_up" 0
      AlertType.baseUp "A" {}
      ([⟨false, 0, 0, "", ""⟩] ++ (⟨true, 10, 0, "", ""⟩ : EdgeStep) ::
        (([] : List EdgeStep) ++ ([⟨false, 12, 0, "", ""⟩] ++
          (⟨true, 20, 0, "", ""⟩ : EdgeStep) ::
            (([] : List EdgeStep) ++ ([] : List EdgeStep)))))).1.length = 1 ∧
    (runEdge ⟨25000000000, 300000000000⟩ ⟨"A", none, none, none, none, 0⟩ "base_up" 0
      AlertType.baseUp "A" {}
      ([⟨false, 0, 0, "", ""⟩] ++ (⟨true, 10, 0, "", ""⟩ : EdgeStep) ::
        (([] : List EdgeStep) ++ ([⟨false, 12, 0, "", ""⟩] ++
          (⟨true, 50000000010, 0, "", ""⟩ : EdgeStep) ::
            (([] : List EdgeStep) ++ ([] : List EdgeStep)))))).1.length = 2 := by
  refine ⟨?_, ?_, ?_⟩
  · exact edge_cooldown_gate_spec.1 ⟨25000000000, 300000000000⟩
      ⟨"A", none, none, none, none, 0⟩ "base_up" 0 AlertType.baseUp "A" {}
      ⟨true, 5, 1, "m", "s"⟩
  · exact (edge_cooldown_gate_spec.2 ⟨25000000000, 300000000000⟩
      ⟨"A", none, none, none, none, 0⟩ "base_up" 0 AlertType.baseUp "A" {}
      [⟨false, 0, 0, "", ""⟩] ⟨true, 10, 0, "", ""⟩ [] [⟨false, 12, 0, "", ""⟩]
      ⟨true, 20, 0, "", ""⟩ [] []
      (by decide) (by decide) (by decide) rfl (by decide) (by decide) (by decide)
      rfl (by decide) (by decide)).1 (by decide)
  · exact (edge_cooldown_gate_spec.2 ⟨25000000000, 300000000000⟩
      ⟨"A", none, none, none, none, 0⟩ "base_up" 0 AlertType.baseUp "A" {}
      [⟨false, 0, 0, "", ""⟩] ⟨true, 10, 0, "", ""⟩ [] [⟨false, 12, 0, "", ""⟩]
      ⟨true, 50000000010, 0, "", ""⟩ [] []
      (by decide) (by decide) (by decide) rfl (by decide) (by decide) (by decide)
      rfl (by decide) (by decide)).2 (by decide)

end StockRadar
